import Mathlib

/-!
# Drasl authentication core: identifier codec and session handlers

A shallow embedding of `src/model.go` and `src/auth.go`.

* A Go `string` is modelled by its sequence of bytes (`GoString`), so that
  `len`, slicing and `strings.ReplaceAll` act on bytes as they do in Go.
* A Go function returning `(string, error)` is modelled by a pair whose error
  component is `none` for `nil`.
* The relational store behind `app.DB` is modelled by two tables of rows; the
  GORM calls the handlers make are modelled one by one in the section
  "Store operations".
-/

namespace Drasl

/-- A Go string: its bytes, in order. -/
abbrev GoString := List Nat

/-- The bytes of an ASCII literal (code points equal bytes on ASCII). -/
def ascii (s : String) : GoString := s.toList.map Char.toNat

/-- The byte of the ASCII hyphen, the `"-"` of `model.go`. -/
def hyphen : Nat := 45

/-- Errors a handler or a helper can return. -/
inductive GoError where
  | invalidUUID
  | invalidID
  | recordNotFound
  | other (msg : String)
deriving DecidableEq, Repr

/-! ## Identifier codec (`model.go`, lines 44-56) -/

/-- The Go call `strings.ReplaceAll(s, "-", "")`: every hyphen byte is dropped. -/
def replaceAllHyphens (s : GoString) : GoString :=
  s.filter (fun b => b != hyphen)

/-- The Go slice expression `s[lo:hi]` on a string whose length is at least `hi`. -/
def slice (s : GoString) (lo hi : Nat) : GoString :=
  (s.drop lo).take (hi - lo)

/-- The function `UUIDToID` of `model.go`. -/
def UUIDToID (uuid : GoString) : GoString × Option GoError :=
  if uuid.length != 36 then
    ([], some GoError.invalidUUID)
  else
    (replaceAllHyphens uuid, none)

/-- The function `IDToUUID` of `model.go`. -/
def IDToUUID (id : GoString) : GoString × Option GoError :=
  if id.length != 32 then
    ([], some GoError.invalidID)
  else
    (slice id 0 8 ++ [hyphen] ++ slice id 8 12 ++ [hyphen] ++ slice id 12 16 ++ [hyphen]
      ++ slice id 16 20 ++ [hyphen] ++ id.drop 20, none)

/-- A canonically formatted UUID: 36 bytes, a hyphen at each of the positions
8, 13, 18 and 23 and at no other position. -/
def Canonical (u : GoString) : Prop :=
  u.length = 36 ∧ ∀ i, i < 36 → (u.getD i 0 = hyphen ↔ (i = 8 ∨ i = 13 ∨ i = 18 ∨ i = 23))

instance (u : GoString) : Decidable (Canonical u) := by
  unfold Canonical; infer_instance

/-- The function `ValidatePlayerName` of `model.go`: `none` is Go's `nil`. -/
def ValidatePlayerName (playerName : GoString) : Option GoError :=
  let maxLength := 16
  if playerName = [] then
    some (GoError.other "can't be blank")
  else if playerName.length > maxLength then
    some (GoError.other ("can't be longer than " ++ toString maxLength ++ " characters"))
  else
    none

/-- The function `ValidateUsername` of `model.go`. -/
def ValidateUsername (username : GoString) : Option GoError :=
  ValidatePlayerName username

/-! ## Data model (`model.go`, lines 158-179) -/

/-- A value of Go's `sql.NullString`: `none` when its `Valid` flag is false. -/
abbrev NullString := Option GoString

/-- A row of the table `token_pairs`: the columns of the Go struct `TokenPair`.
`ClientToken` is the primary key. The struct's field `User` is a belongs-to
association, not a column; `Preload("User")` fills it from the table `users`. -/
structure TokenPair where
  ClientToken : GoString
  AccessToken : GoString
  Valid : Bool
  UserUUID : GoString
deriving DecidableEq, Repr

/-- A row of the table `users`: the columns of the Go struct `User`. `UUID` is
the primary key, `Username` and `PlayerName` carry unique indexes. The struct's
field `TokenPairs` is a has-many association, not a column;
`Preload("TokenPairs")` fills it from the table `token_pairs`. -/
structure User where
  UUID : GoString
  Username : GoString
  PasswordSalt : List Nat
  PasswordHash : List Nat
  ServerID : NullString
  PlayerName : GoString
  PreferredLanguage : GoString
  BrowserToken : NullString
  SkinHash : NullString
  SkinModel : GoString
  CapeHash : NullString
deriving DecidableEq, Repr

/-- The zero value of the Go struct `User` (the value of `var user User`). -/
def User.zero : User :=
  { UUID := [], Username := [], PasswordSalt := [], PasswordHash := [], ServerID := none,
    PlayerName := [], PreferredLanguage := [], BrowserToken := none, SkinHash := none,
    SkinModel := [], CapeHash := none }

/-- The state of the store behind `app.DB`: the rows of its two tables. -/
structure DB where
  users : List User
  token_pairs : List TokenPair
deriving DecidableEq, Repr

/-- The primary-key constraint of `token_pairs`: no two rows share a
`ClientToken` (`gorm:"primaryKey"` in `model.go`). -/
def DB.ClientTokensUnique (db : DB) : Prop :=
  (db.token_pairs.map TokenPair.ClientToken).Nodup

instance (db : DB) : Decidable db.ClientTokensUnique := by
  unfold DB.ClientTokensUnique; infer_instance

/-! ## Credential verifier (`model.go`, lines 134-148) -/

def SCRYPT_N : Nat := 32768
def SCRYPT_r : Nat := 8
def SCRYPT_p : Nat := 1
def SCRYPT_BYTES : Nat := 32

/-- The collaborators of the handlers that are not part of the sources: the
scrypt primitive `scrypt.Key(password, salt, N, r, p, keyLen)` and the random
source `RandomHex(n)`. A request calls `RandomHex` at most twice; the first
argument of the field `RandomHex` is the number of earlier calls made while
serving the request, the second is `n`. -/
structure Env where
  scryptKey : List Nat → List Nat → Nat → Nat → Nat → Nat → Except GoError (List Nat)
  RandomHex : Nat → Nat → Except GoError GoString

/-- The function `HashPassword` of `model.go`. -/
def HashPassword (env : Env) (password : GoString) (salt : List Nat) :
    Except GoError (List Nat) :=
  env.scryptKey password salt SCRYPT_N SCRYPT_r SCRYPT_p SCRYPT_BYTES

/-! ## Store operations

The GORM calls made by `auth.go`, each with the behaviour GORM documents for it. -/

/-- The call `app.DB.First(&user, "username = ?", name)`: the row of `users`
with that username (`Username` is unique, so at most one row matches), or
`none` for `gorm.ErrRecordNotFound`. -/
def firstUserByUsername (db : DB) (name : GoString) : Option User :=
  db.users.find? (fun u => decide (u.Username = name))

/-- The call `app.DB.First(&tokenPair, "client_token = ?", token)`: the row of
`token_pairs` with that primary key, or `none` for `gorm.ErrRecordNotFound`. -/
def firstTokenPairByClientToken (db : DB) (token : GoString) : Option TokenPair :=
  db.token_pairs.find? (fun p => decide (p.ClientToken = token))

/-- The clause `Preload("TokenPairs")`: the rows of `token_pairs` whose foreign
key `user_uuid` is the user's primary key. GORM skips the query when the primary
key is the zero value. -/
def preloadTokenPairs (db : DB) (user : User) : List TokenPair :=
  if user.UUID = [] then [] else
    db.token_pairs.filter (fun p => decide (p.UserUUID = user.UUID))

/-- The clause `Preload("User")`: the row of `users` whose primary key is the
pair's foreign key `UserUUID`; the field keeps its zero value when the foreign
key is the zero value or names no row. -/
def preloadUser (db : DB) (tokenPair : TokenPair) : User :=
  if tokenPair.UserUUID = [] then User.zero else
    (db.users.find? (fun u => decide (u.UUID = tokenPair.UserUUID))).getD User.zero

/-- One row of the statement GORM issues for a has-many association while
saving its owner: `INSERT INTO token_pairs ... ON CONFLICT (client_token) DO
UPDATE SET user_uuid = excluded.user_uuid`. Without the session option
`FullSaveAssociations` (which `auth.go` does not set) a row that already exists
keeps every column except the foreign key. -/
def upsertTokenPair (rows : List TokenPair) (p : TokenPair) : List TokenPair :=
  if rows.any (fun r => decide (r.ClientToken = p.ClientToken)) then
    rows.map (fun r => if r.ClientToken = p.ClientToken then { r with UserUUID := p.UserUUID } else r)
  else
    rows ++ [p]

/-- The call `app.DB.Save(&user)` on a user loaded with its `TokenPairs`.
`Save` executes `Create` when the primary key is the zero value; the row was
loaded from the table, so that insert violates the primary key and the
transaction is rolled back. Otherwise `Save` updates every column of the row
with that primary key (inserting the row if there is none), then upserts the
associated pairs, each with its foreign key set to the user's primary key. -/
def saveUser (db : DB) (user : User) (tokenPairs : List TokenPair) : Except GoError DB :=
  if user.UUID = [] then
    Except.error (GoError.other "UNIQUE constraint failed: users.uuid")
  else
    let users :=
      if db.users.any (fun u => decide (u.UUID = user.UUID)) then
        db.users.map (fun u => if u.UUID = user.UUID then user else u)
      else
        db.users ++ [user]
    let elems := tokenPairs.map (fun p => { p with UserUUID := user.UUID })
    Except.ok { users := users, token_pairs := elems.foldl upsertTokenPair db.token_pairs }

/-- The statement GORM issues for a belongs-to association while saving the
owning row: `INSERT INTO users ... ON CONFLICT DO NOTHING`. -/
def insertUserDoNothing (rows : List User) (u : User) : List User :=
  if rows.any (fun r => decide (r.UUID = u.UUID) || decide (r.Username = u.Username)
      || decide (r.PlayerName = u.PlayerName)) then
    rows
  else
    rows ++ [u]

/-- The call `app.DB.Save(&tokenPair)` on a pair loaded with its `User`.
`Save` executes `Create` when the primary key is the zero value; the row was
loaded from the table, so that insert violates the primary key and the
transaction is rolled back. Otherwise a `User` that is not the zero value is
inserted unless it conflicts with a row, the pair's foreign key is set from it,
and every column of the row with the pair's primary key is updated (the row is
inserted if there is none). The result is the store and the pair as saved. -/
def saveTokenPair (db : DB) (tokenPair : TokenPair) (user : User) :
    Except GoError (DB × TokenPair) :=
  if tokenPair.ClientToken = [] then
    Except.error (GoError.other "UNIQUE constraint failed: token_pairs.client_token")
  else
    let users := if user = User.zero then db.users else insertUserDoNothing db.users user
    let saved : TokenPair :=
      if user = User.zero then tokenPair else { tokenPair with UserUUID := user.UUID }
    let rows :=
      if db.token_pairs.any (fun r => decide (r.ClientToken = saved.ClientToken)) then
        db.token_pairs.map (fun r => if r.ClientToken = saved.ClientToken then saved else r)
      else
        db.token_pairs ++ [saved]
    Except.ok ({ users := users, token_pairs := rows }, saved)

/-- The call `app.DB.Model(TokenPair{}).Where("user_uuid = ?", uuid).Updates(values)`
with a struct `values`: GORM updates only the fields of `values` that are not
the zero value of their type, so a field that is `""` or `false` leaves its
column as it is. (The primary key is never assigned by such an update.) -/
def updatesStructWhereUserUUID (db : DB) (uuid : GoString) (values : TokenPair) : DB :=
  { db with
    token_pairs := db.token_pairs.map (fun r =>
      if r.UserUUID = uuid then
        { ClientToken := r.ClientToken
          AccessToken := if values.AccessToken = [] then r.AccessToken else values.AccessToken
          Valid := if values.Valid = false then r.Valid else values.Valid
          UserUUID := if values.UserUUID = [] then r.UserUUID else values.UserUUID }
      else r) }

/-- The call `app.DB.Table("token_pairs").Where("user_uuid = ?", uuid).Updates(m)`
with the map `m` holding the one key `"Valid"`: a map assigns every key it
holds, zero values included. -/
def updatesValidWhereUserUUID (db : DB) (uuid : GoString) (valid : Bool) : DB :=
  { db with
    token_pairs := db.token_pairs.map (fun r =>
      if r.UserUUID = uuid then { r with Valid := valid } else r) }

/-! ## Requests, responses and replies (`auth.go`) -/

/-- Modelled from the spec: the `agent` field of an Authenticate request. Its
type is declared outside these sources; the handler only tests it against `nil`. -/
structure Agent where
  Name : GoString
  Version : Nat
deriving DecidableEq, Repr

/-- The struct `Profile`, with the two fields `auth.go` assigns. -/
structure Profile where
  ID : GoString
  Name : GoString
deriving DecidableEq, Repr

structure UserProperty where
  Name : GoString
  Value : GoString
deriving DecidableEq, Repr

structure UserResponse where
  ID : GoString
  Properties : List UserProperty
deriving DecidableEq, Repr

/-- The struct `ErrorResponse`, with the two fields `auth.go` assigns. -/
structure ErrorResponse where
  Error : String
  ErrorMessage : String
deriving DecidableEq, Repr

/-- Modelled from the spec: `json.Marshal` of an `ErrorResponse`, whose JSON
keys `error` and `errorMessage` are declared outside these sources. The texts
`auth.go` marshals hold no character that JSON escapes. -/
def marshalErrorResponse (e : ErrorResponse) : String :=
  "\x7b\"error\":\"" ++ e.Error ++ "\",\"errorMessage\":\"" ++ e.ErrorMessage ++ "\"\x7d"

def StatusOK : Nat := 200
def StatusNoContent : Nat := 204
def StatusUnauthorized : Nat := 401
def StatusForbidden : Nat := 403

/-- What a handler hands back to the framework: `c.JSON(status, &res)`,
`c.JSONBlob(status, blob)`, `c.NoContent(status)`, or a returned Go error. -/
inductive Reply (α : Type) where
  | json (status : Nat) (res : α)
  | jsonBlob (status : Nat) (blob : String)
  | noContent (status : Nat)
  | error (e : GoError)
deriving DecidableEq, Repr

structure authenticateRequest where
  Username : GoString
  Password : GoString
  ClientToken : Option GoString
  Agent : Option Agent
  RequestUser : Bool
deriving DecidableEq, Repr

structure authenticateResponse where
  AccessToken : GoString
  ClientToken : GoString
  SelectedProfile : Option Profile
  AvailableProfiles : Option (List Profile)
  User : Option UserResponse
deriving DecidableEq, Repr

structure refreshRequest where
  AccessToken : GoString
  ClientToken : GoString
  RequestUser : Bool
deriving DecidableEq, Repr

structure refreshResponse where
  AccessToken : GoString
  ClientToken : GoString
  SelectedProfile : Profile
  AvailableProfiles : List Profile
  User : Option UserResponse
deriving DecidableEq, Repr

structure validateRequest where
  AccessToken : GoString
  ClientToken : GoString
deriving DecidableEq, Repr

structure signoutRequest where
  Username : GoString
  Password : GoString
deriving DecidableEq, Repr

structure invalidateRequest where
  AccessToken : GoString
  ClientToken : GoString
deriving DecidableEq, Repr

/-- The blob `invalidCredentialsBlob` of `AuthAuthenticate` and `AuthSignout`. -/
def invalidCredentialsBlob : String :=
  marshalErrorResponse
    { Error := "ForbiddenOperationException"
      ErrorMessage := "Invalid credentials. Invalid username or password." }

/-- The blob `invalidAccessTokenBlob` of `AuthRefresh`. -/
def invalidAccessTokenBlob : String :=
  marshalErrorResponse { Error := "TODO", ErrorMessage := "TODO" }

/-! ## Handlers (`auth.go`) -/

/-- The loop of `AuthAuthenticate`, lines 105-112: the first pair whose
`ClientToken` is `clientToken` gets the new access token and `Valid = true`,
and the loop stops; `none` when `clientTokenExists` stays false. -/
def overwriteFirst (clientToken accessToken : GoString) :
    List TokenPair → Option (List TokenPair)
  | [] => none
  | p :: ps =>
    if p.ClientToken = clientToken then
      some ({ p with AccessToken := accessToken, Valid := true } :: ps)
    else
      (overwriteFirst clientToken accessToken ps).map (fun qs => p :: qs)

/-- Lines 91-121 of `AuthAuthenticate`: the value of the outer variable
`clientToken` and the slice `user.TokenPairs` after the branch. When the request
has no client token the generated one is bound to a new variable of the inner
scope (`clientToken, err := RandomHex(16)`), so the outer variable keeps its
zero value `""`. -/
def authenticateTokenPairs (env : Env) (tokenPairs : List TokenPair)
    (reqClientToken : Option GoString) (accessToken : GoString) :
    Except GoError (GoString × List TokenPair) :=
  match reqClientToken with
  | none =>
    match env.RandomHex 1 16 with
    | Except.error e => Except.error e
    | Except.ok inner =>
      Except.ok ([], tokenPairs ++
        [{ ClientToken := inner, AccessToken := accessToken, Valid := true, UserUUID := [] }])
  | some clientToken =>
    match overwriteFirst clientToken accessToken tokenPairs with
    | some updated => Except.ok (clientToken, updated)
    | none =>
      Except.ok (clientToken, tokenPairs ++
        [{ ClientToken := clientToken, AccessToken := accessToken, Valid := true,
           UserUUID := [] }])

/-- Lines 128-164 of `AuthAuthenticate`: the response assembled after the save. -/
def authenticateReply (req : authenticateRequest) (user : User)
    (clientToken accessToken : GoString) : Reply authenticateResponse :=
  let profiles : Except GoError (Option Profile) :=
    match req.Agent with
    | none => Except.ok none
    | some _ =>
      match UUIDToID user.UUID with
      | (_, some e) => Except.error e
      | (id, none) => Except.ok (some { ID := id, Name := user.PlayerName })
  match profiles with
  | Except.error e => Reply.error e
  | Except.ok selectedProfile =>
    let userResponse : Except GoError (Option UserResponse) :=
      if req.RequestUser then
        match UUIDToID user.UUID with
        | (_, some e) => Except.error e
        | (id, none) =>
          Except.ok (some { ID := id, Properties :=
            [{ Name := ascii "preferredLanguage", Value := user.PreferredLanguage }] })
      else Except.ok none
    match userResponse with
    | Except.error e => Reply.error e
    | Except.ok userResponse =>
      Reply.json StatusOK
        { ClientToken := clientToken
          AccessToken := accessToken
          SelectedProfile := selectedProfile
          AvailableProfiles := selectedProfile.map (fun p => [p])
          User := userResponse }

/-- The handler returned by `AuthAuthenticate`: the store after the request and
the reply. -/
def AuthAuthenticate (env : Env) (db : DB) (req : authenticateRequest) :
    DB × Reply authenticateResponse :=
  match firstUserByUsername db req.Username with
  | none => (db, Reply.error GoError.recordNotFound)
  | some user =>
    match HashPassword env req.Password user.PasswordSalt with
    | Except.error e => (db, Reply.error e)
    | Except.ok passwordHash =>
      if passwordHash ≠ user.PasswordHash then
        (db, Reply.jsonBlob StatusUnauthorized invalidCredentialsBlob)
      else
        match env.RandomHex 0 16 with
        | Except.error e => (db, Reply.error e)
        | Except.ok accessToken =>
          match authenticateTokenPairs env (preloadTokenPairs db user) req.ClientToken
              accessToken with
          | Except.error e => (db, Reply.error e)
          | Except.ok (clientToken, tokenPairs) =>
            match saveUser db user tokenPairs with
            | Except.error e => (db, Reply.error e)
            | Except.ok db1 => (db1, authenticateReply req user clientToken accessToken)

/-- Lines 232-265 of `AuthRefresh`: the response assembled after the save. -/
def refreshReply (req : refreshRequest) (user : User) (tokenPair : TokenPair) :
    Reply refreshResponse :=
  match UUIDToID user.UUID with
  | (_, some e) => Reply.error e
  | (id, none) =>
    let selectedProfile : Profile := { ID := id, Name := user.PlayerName }
    let userResponse : Except GoError (Option UserResponse) :=
      if req.RequestUser then
        match UUIDToID user.UUID with
        | (_, some e) => Except.error e
        | (id, none) =>
          Except.ok (some { ID := id, Properties :=
            [{ Name := ascii "preferredLanguage", Value := user.PreferredLanguage }] })
      else Except.ok none
    match userResponse with
    | Except.error e => Reply.error e
    | Except.ok userResponse =>
      Reply.json StatusOK
        { AccessToken := tokenPair.AccessToken
          ClientToken := tokenPair.ClientToken
          SelectedProfile := selectedProfile
          AvailableProfiles := [selectedProfile]
          User := userResponse }

/-- The handler returned by `AuthRefresh`. -/
def AuthRefresh (env : Env) (db : DB) (req : refreshRequest) : DB × Reply refreshResponse :=
  match firstTokenPairByClientToken db req.ClientToken with
  | none => (db, Reply.noContent StatusUnauthorized)
  | some tokenPair =>
    let user := preloadUser db tokenPair
    if req.AccessToken ≠ tokenPair.AccessToken then
      (db, Reply.jsonBlob StatusUnauthorized invalidAccessTokenBlob)
    else
      match env.RandomHex 0 16 with
      | Except.error e => (db, Reply.error e)
      | Except.ok accessToken =>
        match saveTokenPair db { tokenPair with AccessToken := accessToken, Valid := true }
            user with
        | Except.error e => (db, Reply.error e)
        | Except.ok (db1, saved) => (db1, refreshReply req user saved)

/-- The handler returned by `AuthValidate`. It has no response body type. -/
def AuthValidate (db : DB) (req : validateRequest) : DB × Reply Unit :=
  match firstTokenPairByClientToken db req.ClientToken with
  | none => (db, Reply.noContent StatusForbidden)
  | some tokenPair =>
    if !tokenPair.Valid || decide (req.AccessToken ≠ tokenPair.AccessToken) then
      (db, Reply.noContent StatusForbidden)
    else
      (db, Reply.noContent StatusNoContent)

/-- The handler returned by `AuthSignout`. The bulk update of line 330 passes the
struct `TokenPair{Valid: false}`, all of whose fields are zero values; its
result is dropped, and line 332 tests the result of the earlier `First`. -/
def AuthSignout (env : Env) (db : DB) (req : signoutRequest) : DB × Reply Unit :=
  match firstUserByUsername db req.Username with
  | none => (db, Reply.error GoError.recordNotFound)
  | some user =>
    match HashPassword env req.Password user.PasswordSalt with
    | Except.error e => (db, Reply.error e)
    | Except.ok passwordHash =>
      if passwordHash ≠ user.PasswordHash then
        (db, Reply.jsonBlob StatusUnauthorized invalidCredentialsBlob)
      else
        (updatesStructWhereUserUUID db user.UUID
            { ClientToken := [], AccessToken := [], Valid := false, UserUUID := [] },
          Reply.noContent StatusNoContent)

/-- The handler returned by `AuthInvalidate`. -/
def AuthInvalidate (db : DB) (req : invalidateRequest) : DB × Reply Unit :=
  match firstTokenPairByClientToken db req.ClientToken with
  | none => (db, Reply.error GoError.recordNotFound)
  | some tokenPair =>
    (updatesValidWhereUserUUID db tokenPair.UserUUID false, Reply.noContent StatusNoContent)

/-! ## A concrete store for the closed statements -/

/-- A stand-in for scrypt on concrete inputs: the salt followed by the password. -/
def demoEnv (accessToken clientToken : GoString) : Env :=
  { scryptKey := fun password salt _ _ _ _ => Except.ok (salt ++ password)
    RandomHex := fun k _ => Except.ok (if k = 0 then accessToken else clientToken) }

def aliceUUID : GoString := ascii "01234567-89ab-cdef-0123-456789abcdef"

/-- The user `alice` with password `secret` under `demoEnv`. -/
def alice : User :=
  { UUID := aliceUUID, Username := ascii "alice", PasswordSalt := [1, 2, 3],
    PasswordHash := [1, 2, 3] ++ ascii "secret", ServerID := none,
    PlayerName := ascii "Alice", PreferredLanguage := ascii "en", BrowserToken := none,
    SkinHash := none, SkinModel := ascii "classic", CapeHash := none }

def tokenA1 : GoString := ascii "a1a1a1a1a1a1a1a1a1a1a1a1a1a1a1a1"
def tokenA2 : GoString := ascii "a2a2a2a2a2a2a2a2a2a2a2a2a2a2a2a2"
def tokenC1 : GoString := ascii "c1c1c1c1c1c1c1c1c1c1c1c1c1c1c1c1"
def tokenC2 : GoString := ascii "c2c2c2c2c2c2c2c2c2c2c2c2c2c2c2c2"

/-- A store holding `alice` and no pair. -/
def dbAlice : DB := { users := [alice], token_pairs := [] }

/-- A store holding `alice` and her pair `(tokenC1, tokenA1)` with the given flag. -/
def dbAlicePair (valid : Bool) : DB :=
  { users := [alice]
    token_pairs :=
      [{ ClientToken := tokenC1, AccessToken := tokenA1, Valid := valid, UserUUID := aliceUUID }] }

/-- The request of `alice` with her password `secret`. -/
def aliceLogin (clientToken : Option GoString) : authenticateRequest :=
  { Username := ascii "alice", Password := ascii "secret", ClientToken := clientToken,
    Agent := none, RequestUser := false }

/-- The response to `aliceLogin`, which asks for no profile and no user block. -/
def bareResponse (accessToken clientToken : GoString) : authenticateResponse :=
  { AccessToken := accessToken, ClientToken := clientToken, SelectedProfile := none,
    AvailableProfiles := none, User := none }

/-- The profile of `alice`. -/
def aliceProfile : Profile :=
  { ID := ascii "0123456789abcdef0123456789abcdef", Name := ascii "Alice" }

/-- An ASCII hexadecimal digit: `0`-`9`, `a`-`f` or `A`-`F`. -/
def IsHexDigit (b : Nat) : Prop :=
  (48 ≤ b ∧ b ≤ 57) ∨ (97 ≤ b ∧ b ≤ 102) ∨ (65 ≤ b ∧ b ≤ 70)

instance (b : Nat) : Decidable (IsHexDigit b) := by
  unfold IsHexDigit; infer_instance

def bobUUID : GoString := ascii "fedcba98-7654-3210-fedc-ba9876543210"

/-- The user `bob` with password `hunter2` under `demoEnv`. -/
def bob : User :=
  { UUID := bobUUID, Username := ascii "bob", PasswordSalt := [4, 5],
    PasswordHash := [4, 5] ++ ascii "hunter2", ServerID := none,
    PlayerName := ascii "Bob", PreferredLanguage := ascii "en", BrowserToken := none,
    SkinHash := none, SkinModel := ascii "classic", CapeHash := none }

/-- A store holding `alice` with her valid pair `(tokenC1, tokenA1)` and `bob`
with his pair `(tokenC2, tokenA2)` carrying the given owner. -/
def dbAliceBob (owner : GoString) : DB :=
  { users := [alice, bob]
    token_pairs :=
      [{ ClientToken := tokenC1, AccessToken := tokenA1, Valid := true, UserUUID := aliceUUID },
       { ClientToken := tokenC2, AccessToken := tokenA2, Valid := true, UserUUID := owner }] }

/-- An environment whose random source fails. -/
def failingRandEnv : Env :=
  { scryptKey := fun password salt _ _ _ _ => Except.ok (salt ++ password)
    RandomHex := fun _ _ => Except.error (GoError.other "rand: read failed") }

/-- A store holding `alice` and a pair `(tokenC2, tokenA2)` with `Valid = false`
whose UserUUID names no row of `users`, with the given access token. -/
def dbOrphanPair (accessToken : GoString) (valid : Bool) : DB :=
  { users := [alice]
    token_pairs :=
      [{ ClientToken := tokenC2, AccessToken := accessToken, Valid := valid,
         UserUUID := bobUUID }] }

def tokenA3 : GoString := ascii "a3a3a3a3a3a3a3a3a3a3a3a3a3a3a3a3"

/-- Every pair of `db` is still in `db1` with its ClientToken and its owner. -/
def KeepsPairs (db db1 : DB) : Prop :=
  ∀ r ∈ db.token_pairs, ∃ r1 ∈ db1.token_pairs,
    r1.ClientToken = r.ClientToken ∧ r1.UserUUID = r.UserUUID

/-- The request of `alice` with her password `secret`, a launcher agent and the
given `requestUser` flag. -/
def aliceAgentLogin (requestUser : Bool) : authenticateRequest :=
  { Username := ascii "alice", Password := ascii "secret", ClientToken := some tokenC1,
    Agent := some { Name := ascii "Minecraft", Version := 1 }, RequestUser := requestUser }

/-! ## Theorems -/

/-- Every list of length 36 is an explicit list of 36 entries. -/
theorem length36_cases (u : GoString) (h : u.length = 36) :
    ∃ a0 a1 a2 a3 a4 a5 a6 a7 a8 a9 a10 a11 a12 a13 a14 a15 a16 a17 a18 a19 a20 a21 a22 a23
      a24 a25 a26 a27 a28 a29 a30 a31 a32 a33 a34 a35,
      u = a0 :: a1 :: a2 :: a3 :: a4 :: a5 :: a6 :: a7 :: a8 :: a9 :: a10 :: a11 :: a12 :: a13
        :: a14 :: a15 :: a16 :: a17 :: a18 :: a19 :: a20 :: a21 :: a22 :: a23 :: a24 :: a25 ::
        a26 :: a27 :: a28 :: a29 :: a30 :: a31 :: a32 :: a33 :: a34 :: a35 :: [] := by
  match u, h with
  | a0 :: a1 :: a2 :: a3 :: a4 :: a5 :: a6 :: a7 :: a8 :: a9 :: a10 :: a11 :: a12 :: a13 :: a14
    :: a15 :: a16 :: a17 :: a18 :: a19 :: a20 :: a21 :: a22 :: a23 :: a24 :: a25 :: a26 :: a27
    :: a28 :: a29 :: a30 :: a31 :: a32 :: a33 :: a34 :: a35 :: [], _ =>
    exact ⟨a0, a1, a2, a3, a4, a5, a6, a7, a8, a9, a10, a11, a12, a13, a14, a15, a16, a17,
      a18, a19, a20, a21, a22, a23, a24, a25, a26, a27, a28, a29, a30, a31, a32, a33, a34,
      a35, rfl⟩

/-- C1: for every canonically formatted UUID `u`, `UUIDToID u` succeeds with
some id, `IDToUUID` succeeds on that id, and the result is `u` again. -/
theorem uuid_roundtrip (u : GoString) (h : Canonical u) :
    (UUIDToID u).2 = none ∧ (IDToUUID (UUIDToID u).1).2 = none ∧
      (IDToUUID (UUIDToID u).1).1 = u := by
  obtain ⟨hlen, hpos⟩ := h
  obtain ⟨a0, a1, a2, a3, a4, a5, a6, a7, a8, a9, a10, a11, a12, a13, a14, a15, a16, a17,
        a18, a19, a20, a21, a22, a23, a24, a25, a26, a27, a28, a29, a30, a31, a32, a33, a34,
        a35, rfl⟩ := length36_cases u hlen
  have h0 : a0 ≠ hyphen := by simpa using hpos 0 (by omega)
  have h1 : a1 ≠ hyphen := by simpa using hpos 1 (by omega)
  have h2 : a2 ≠ hyphen := by simpa using hpos 2 (by omega)
  have h3 : a3 ≠ hyphen := by simpa using hpos 3 (by omega)
  have h4 : a4 ≠ hyphen := by simpa using hpos 4 (by omega)
  have h5 : a5 ≠ hyphen := by simpa using hpos 5 (by omega)
  have h6 : a6 ≠ hyphen := by simpa using hpos 6 (by omega)
  have h7 : a7 ≠ hyphen := by simpa using hpos 7 (by omega)
  have h8 : a8 = hyphen := by simpa using hpos 8 (by omega)
  have h9 : a9 ≠ hyphen := by simpa using hpos 9 (by omega)
  have h10 : a10 ≠ hyphen := by simpa using hpos 10 (by omega)
  have h11 : a11 ≠ hyphen := by simpa using hpos 11 (by omega)
  have h12 : a12 ≠ hyphen := by simpa using hpos 12 (by omega)
  have h13 : a13 = hyphen := by simpa using hpos 13 (by omega)
  have h14 : a14 ≠ hyphen := by simpa using hpos 14 (by omega)
  have h15 : a15 ≠ hyphen := by simpa using hpos 15 (by omega)
  have h16 : a16 ≠ hyphen := by simpa using hpos 16 (by omega)
  have h17 : a17 ≠ hyphen := by simpa using hpos 17 (by omega)
  have h18 : a18 = hyphen := by simpa using hpos 18 (by omega)
  have h19 : a19 ≠ hyphen := by simpa using hpos 19 (by omega)
  have h20 : a20 ≠ hyphen := by simpa using hpos 20 (by omega)
  have h21 : a21 ≠ hyphen := by simpa using hpos 21 (by omega)
  have h22 : a22 ≠ hyphen := by simpa using hpos 22 (by omega)
  have h23 : a23 = hyphen := by simpa using hpos 23 (by omega)
  have h24 : a24 ≠ hyphen := by simpa using hpos 24 (by omega)
  have h25 : a25 ≠ hyphen := by simpa using hpos 25 (by omega)
  have h26 : a26 ≠ hyphen := by simpa using hpos 26 (by omega)
  have h27 : a27 ≠ hyphen := by simpa using hpos 27 (by omega)
  have h28 : a28 ≠ hyphen := by simpa using hpos 28 (by omega)
  have h29 : a29 ≠ hyphen := by simpa using hpos 29 (by omega)
  have h30 : a30 ≠ hyphen := by simpa using hpos 30 (by omega)
  have h31 : a31 ≠ hyphen := by simpa using hpos 31 (by omega)
  have h32 : a32 ≠ hyphen := by simpa using hpos 32 (by omega)
  have h33 : a33 ≠ hyphen := by simpa using hpos 33 (by omega)
  have h34 : a34 ≠ hyphen := by simpa using hpos 34 (by omega)
  have h35 : a35 ≠ hyphen := by simpa using hpos 35 (by omega)
  subst h8 h13 h18 h23
  simp [UUIDToID, IDToUUID, replaceAllHyphens, slice, List.filter_cons, *]

/-- Witness for C1 on the UUID `01234567-89ab-cdef-0123-456789abcdef`. -/
theorem uuid_roundtrip_witness :
    Canonical (ascii "01234567-89ab-cdef-0123-456789abcdef") ∧
      (IDToUUID (UUIDToID (ascii "01234567-89ab-cdef-0123-456789abcdef")).1).1
        = ascii "01234567-89ab-cdef-0123-456789abcdef" :=
  ⟨by decide, (uuid_roundtrip (ascii "01234567-89ab-cdef-0123-456789abcdef") (by decide)).2.2⟩

/-- C2: `UUIDToID` returns an error exactly when its input is not 36 bytes long,
`IDToUUID` exactly when its input is not 32 bytes long, and whenever either
returns an error its string result is the empty string. -/
theorem codec_fail_fast (s : GoString) :
    ((UUIDToID s).2 ≠ none ↔ s.length ≠ 36) ∧
      ((IDToUUID s).2 ≠ none ↔ s.length ≠ 32) ∧
      ((UUIDToID s).2 ≠ none → (UUIDToID s).1 = []) ∧
      ((IDToUUID s).2 ≠ none → (IDToUUID s).1 = []) := by
  refine ⟨?_, ?_, ?_, ?_⟩
  · by_cases h : s.length = 36 <;> simp [UUIDToID, h]
  · by_cases h : s.length = 32 <;> simp [IDToUUID, h]
  · by_cases h : s.length = 36 <;> simp [UUIDToID, h]
  · by_cases h : s.length = 32 <;> simp [IDToUUID, h]

/-! ### Inversion of the handlers -/

theorem refreshReply_json (req : refreshRequest) (user : User) (tokenPair : TokenPair)
    (status : Nat) (res : refreshResponse)
    (h : refreshReply req user tokenPair = Reply.json status res) :
    res.AccessToken = tokenPair.AccessToken ∧ res.ClientToken = tokenPair.ClientToken := by
  unfold refreshReply at h
  rcases hU : UUIDToID user.UUID with ⟨id, _ | e⟩ <;>
    rcases hR : req.RequestUser <;> simp [hU, hR] at h
  all_goals (obtain ⟨_, rfl⟩ := h; exact ⟨rfl, rfl⟩)

theorem refresh_ok_inv (env : Env) (db : DB) (req : refreshRequest) (db1 : DB)
    (status : Nat) (res : refreshResponse)
    (h : AuthRefresh env db req = (db1, Reply.json status res)) :
    ∃ tokenPair accessToken saved,
      firstTokenPairByClientToken db req.ClientToken = some tokenPair ∧
      req.AccessToken = tokenPair.AccessToken ∧
      env.RandomHex 0 16 = Except.ok accessToken ∧
      saveTokenPair db { tokenPair with AccessToken := accessToken, Valid := true }
        (preloadUser db tokenPair) = Except.ok (db1, saved) ∧
      res.AccessToken = saved.AccessToken ∧ res.ClientToken = saved.ClientToken := by
  unfold AuthRefresh at h
  split at h
  · cases h
  · rename_i tokenPair hfind
    simp only at h
    split at h
    · cases h
    · rename_i hacc
      split at h
      · cases h
      · rename_i accessToken hrand
        split at h
        · cases h
        · rename_i db2 saved hsave
          simp only [Prod.mk.injEq] at h
          obtain ⟨rfl, hreply⟩ := h
          obtain ⟨h1, h2⟩ := refreshReply_json _ _ _ _ _ hreply
          exact ⟨tokenPair, accessToken, saved, hfind, by_contra hacc, hrand, hsave, h1, h2⟩

/-! ### Facts about the store operations -/

theorem firstTokenPair_some (db : DB) (c : GoString) (p : TokenPair)
    (h : firstTokenPairByClientToken db c = some p) :
    p ∈ db.token_pairs ∧ p.ClientToken = c := by
  unfold firstTokenPairByClientToken at h
  exact ⟨List.mem_of_find?_eq_some h, by simpa using List.find?_some h⟩

theorem firstTokenPair_none (db : DB) (c : GoString)
    (h : ∀ p ∈ db.token_pairs, p.ClientToken ≠ c) :
    firstTokenPairByClientToken db c = none := by
  unfold firstTokenPairByClientToken
  simpa using h

/-- Under the primary-key constraint the lookup returns the pair with that key. -/
theorem firstTokenPair_of_mem (db : DB) (hu : db.ClientTokensUnique) (p : TokenPair)
    (hp : p ∈ db.token_pairs) :
    firstTokenPairByClientToken db p.ClientToken = some p := by
  cases hf : firstTokenPairByClientToken db p.ClientToken with
  | none =>
    unfold firstTokenPairByClientToken at hf
    simp only [List.find?_eq_none, decide_eq_true_eq] at hf
    exact absurd rfl (hf p hp)
  | some q =>
    obtain ⟨hq, hk⟩ := firstTokenPair_some db _ q hf
    rw [List.inj_on_of_nodup_map hu hq hp hk]

theorem find_replace_key (rows : List TokenPair) (c : GoString) (s : TokenPair)
    (hs : s.ClientToken = c)
    (hex : rows.any (fun r => decide (r.ClientToken = c)) = true) :
    (rows.map (fun r => if r.ClientToken = c then s else r)).find?
      (fun p => decide (p.ClientToken = c)) = some s := by
  induction rows with
  | nil => simp at hex
  | cons r rs ih =>
    by_cases hr : r.ClientToken = c
    · simp [hr, hs]
    · have hex1 : rs.any (fun r => decide (r.ClientToken = c)) = true := by
        simpa [hr] using hex
      simp [hr, ih hex1]

theorem saveTokenPair_ok (db : DB) (tokenPair : TokenPair) (user : User) (db1 : DB)
    (saved : TokenPair) (h : saveTokenPair db tokenPair user = Except.ok (db1, saved))
    (hmem : db.token_pairs.any (fun r => decide (r.ClientToken = tokenPair.ClientToken)) = true) :
    saved.ClientToken = tokenPair.ClientToken ∧ saved.AccessToken = tokenPair.AccessToken ∧
      saved.Valid = tokenPair.Valid ∧
      db1.token_pairs
        = db.token_pairs.map (fun r => if r.ClientToken = tokenPair.ClientToken then saved else r) := by
  unfold saveTokenPair at h
  split at h
  · cases h
  · simp only [Except.ok.injEq, Prod.mk.injEq] at h
    obtain ⟨rfl, rfl⟩ := h
    by_cases hz : user = User.zero <;> simp [hz, hmem]

theorem saveUser_ok (db : DB) (user : User) (tokenPairs : List TokenPair) (db1 : DB)
    (h : saveUser db user tokenPairs = Except.ok db1) :
    user.UUID ≠ [] ∧
      db1.token_pairs
        = (tokenPairs.map (fun p => { p with UserUUID := user.UUID })).foldl upsertTokenPair
            db.token_pairs := by
  unfold saveUser at h
  split at h
  · cases h
  · rename_i hz
    simp only [Except.ok.injEq] at h
    subst h
    exact ⟨hz, rfl⟩

/-! ### The session handlers -/

/-- C3, failing input: `alice` authenticates with her correct password and no
clientToken. The reply is 200 with an empty `clientToken`, the generated client
token is only in the store, and `Validate` with the returned tokens answers 403
(it would answer 204 with the generated client token). -/
theorem authenticate_without_clientToken_not_validated :
    AuthAuthenticate (demoEnv tokenA1 tokenC1) dbAlice (aliceLogin none)
        = (dbAlicePair true, Reply.json 200 (bareResponse tokenA1 [])) ∧
      AuthValidate (dbAlicePair true) { AccessToken := tokenA1, ClientToken := [] }
        = (dbAlicePair true, Reply.noContent 403) ∧
      AuthValidate (dbAlicePair true) { AccessToken := tokenA1, ClientToken := tokenC1 }
        = (dbAlicePair true, Reply.noContent 204) := by
  decide

/-- C4, counterexample: the random source returns the access token the pair
already has; `Refresh` succeeds and the prior access token still validates. -/
theorem refresh_same_token_still_validates :
    AuthRefresh (demoEnv tokenA1 tokenC2) (dbAlicePair true)
        { AccessToken := tokenA1, ClientToken := tokenC1, RequestUser := false }
        = (dbAlicePair true, Reply.json 200
            { AccessToken := tokenA1, ClientToken := tokenC1, SelectedProfile := aliceProfile,
              AvailableProfiles := [aliceProfile], User := none }) ∧
      AuthValidate (dbAlicePair true) { AccessToken := tokenA1, ClientToken := tokenC1 }
        = (dbAlicePair true, Reply.noContent 204) := by
  decide

/-- C4, amended: after every successful `Refresh(A1, C)` that returns the access
token `A2`, `Validate(A2, C)` answers 204 on the resulting store, and
`Validate(A1, C)` answers 403 there whenever `A2` differs from `A1`. -/
theorem refresh_rotates (env : Env) (db : DB) (req : refreshRequest) (db1 : DB)
    (res : refreshResponse)
    (h : AuthRefresh env db req = (db1, Reply.json 200 res)) :
    AuthValidate db1 { AccessToken := res.AccessToken, ClientToken := req.ClientToken }
        = (db1, Reply.noContent 204) ∧
      (res.AccessToken ≠ req.AccessToken →
        AuthValidate db1 { AccessToken := req.AccessToken, ClientToken := req.ClientToken }
          = (db1, Reply.noContent 403)) := by
  obtain ⟨tokenPair, accessToken, saved, hfind, _, _, hsave, hres, _⟩ :=
    refresh_ok_inv env db req db1 200 res h
  obtain ⟨hmem, hkey⟩ := firstTokenPair_some db _ _ hfind
  have hany : db.token_pairs.any (fun r => decide (r.ClientToken = tokenPair.ClientToken))
      = true := by
    simp only [List.any_eq_true, decide_eq_true_eq]
    exact ⟨tokenPair, hmem, rfl⟩
  obtain ⟨hsk, hsa, hsv, hrows⟩ := saveTokenPair_ok db _ _ db1 saved hsave hany
  simp only at hsk hsa hsv hrows
  have hfind1 : firstTokenPairByClientToken db1 req.ClientToken = some saved := by
    unfold firstTokenPairByClientToken
    rw [hrows, ← hkey]
    exact find_replace_key _ _ _ hsk hany
  constructor
  · simp [AuthValidate, hfind1, hsv, hres, StatusNoContent]
  · intro hne
    have hne1 : req.AccessToken ≠ saved.AccessToken := fun e => hne (by rw [hres, e])
    simp [AuthValidate, hfind1, hsv, hne1, StatusForbidden]

/-- Witness for the amended C4: `alice` refreshes her pair and gets `tokenA2`. -/
theorem refresh_rotates_witness :
    AuthValidate (dbAlicePair true) { AccessToken := tokenA1, ClientToken := tokenC1 }
        = (dbAlicePair true, Reply.noContent 204) ∧
      AuthValidate
          { users := [alice]
            token_pairs := [{ ClientToken := tokenC1, AccessToken := tokenA2, Valid := true,
                              UserUUID := aliceUUID }] }
          { AccessToken := tokenA1, ClientToken := tokenC1 }
        = ({ users := [alice]
             token_pairs := [{ ClientToken := tokenC1, AccessToken := tokenA2, Valid := true,
                               UserUUID := aliceUUID }] }, Reply.noContent 403) :=
  ⟨by decide,
    (refresh_rotates (demoEnv tokenA2 tokenC2) (dbAlicePair true)
      { AccessToken := tokenA1, ClientToken := tokenC1, RequestUser := false }
      { users := [alice]
        token_pairs := [{ ClientToken := tokenC1, AccessToken := tokenA2, Valid := true,
                          UserUUID := aliceUUID }] }
      { AccessToken := tokenA2, ClientToken := tokenC1, SelectedProfile := aliceProfile,
        AvailableProfiles := [aliceProfile], User := none }
      (by decide)).2 (by decide)⟩

/-- The bulk update of `AuthSignout` assigns no column: the store is unchanged
by every Signout request. -/
theorem signout_store_unchanged (env : Env) (db : DB) (req : signoutRequest) :
    (AuthSignout env db req).1 = db := by
  unfold AuthSignout
  split
  · rfl
  · split
    · rfl
    · split
      · rfl
      · simp [updatesStructWhereUserUUID]

/-- C5, failing input: `alice` owns a valid pair and signs out with her correct
password. The reply is 204, the pair keeps `Valid = true`, and `Validate` on it
still answers 204. -/
theorem signout_leaves_pair_valid :
    AuthSignout (demoEnv tokenA2 tokenC2) (dbAlicePair true)
        { Username := ascii "alice", Password := ascii "secret" }
        = (dbAlicePair true, Reply.noContent 204) ∧
      AuthValidate (dbAlicePair true) { AccessToken := tokenA1, ClientToken := tokenC1 }
        = (dbAlicePair true, Reply.noContent 204) := by
  decide

/-- C6: `Validate` leaves the store unchanged and always answers with an empty
body; on a store that meets the primary-key constraint of `token_pairs` it
answers 204 if and only if the store holds a pair with the request's
ClientToken whose Valid flag is true and whose AccessToken is the request's, and
it answers 403 otherwise. -/
theorem validate_exact (db : DB) (req : validateRequest) (hu : db.ClientTokensUnique) :
    (AuthValidate db req).1 = db ∧
      ((AuthValidate db req).2 = Reply.noContent 204 ↔
        ∃ p ∈ db.token_pairs, p.ClientToken = req.ClientToken ∧ p.Valid = true ∧
          p.AccessToken = req.AccessToken) ∧
      ((¬ ∃ p ∈ db.token_pairs, p.ClientToken = req.ClientToken ∧ p.Valid = true ∧
          p.AccessToken = req.AccessToken) →
        (AuthValidate db req).2 = Reply.noContent 403) := by
  have hyes : (∃ p ∈ db.token_pairs, p.ClientToken = req.ClientToken ∧ p.Valid = true ∧
      p.AccessToken = req.AccessToken) → (AuthValidate db req).2 = Reply.noContent 204 := by
    rintro ⟨p, hp, hk, hv, ha⟩
    have hf := firstTokenPair_of_mem db hu p hp
    rw [hk] at hf
    simp [AuthValidate, hf, hv, ha, StatusNoContent]
  have hno : (¬ ∃ p ∈ db.token_pairs, p.ClientToken = req.ClientToken ∧ p.Valid = true ∧
      p.AccessToken = req.AccessToken) → (AuthValidate db req).2 = Reply.noContent 403 := by
    intro hno
    cases hf : firstTokenPairByClientToken db req.ClientToken with
    | none => simp [AuthValidate, hf, StatusForbidden]
    | some q =>
      obtain ⟨hq, hk⟩ := firstTokenPair_some db _ q hf
      have hbad : ¬ (q.Valid = true ∧ q.AccessToken = req.AccessToken) :=
        fun hc => hno ⟨q, hq, hk, hc.1, hc.2⟩
      by_cases hv : q.Valid = true
      · have ha : req.AccessToken ≠ q.AccessToken := fun e => hbad ⟨hv, e.symm⟩
        simp [AuthValidate, hf, hv, ha, StatusForbidden]
      · simp [AuthValidate, hf, hv, StatusForbidden]
  refine ⟨?_, ⟨?_, hyes⟩, hno⟩
  · unfold AuthValidate
    split
    · rfl
    · split <;> rfl
  · intro h204
    by_contra hc
    rw [hno hc] at h204
    simp at h204

/-- Witness for C6 on the store holding the valid pair of `alice`. -/
theorem validate_exact_witness :
    (dbAlicePair true).ClientTokensUnique ∧
      (AuthValidate (dbAlicePair true) { AccessToken := tokenA1, ClientToken := tokenC1 }).1
        = dbAlicePair true :=
  ⟨by decide,
    (validate_exact (dbAlicePair true) { AccessToken := tokenA1, ClientToken := tokenC1 }
      (by decide)).1⟩

/-- C7, failing input: the username `bob` matches no user. `Authenticate`
returns the store's `ErrRecordNotFound` as a Go error; it does not answer 401
with the invalid-credentials body. -/
theorem authenticate_unknown_user_returns_error :
    AuthAuthenticate (demoEnv tokenA1 tokenC1) dbAlice
        { Username := ascii "bob", Password := ascii "secret", ClientToken := none,
          Agent := none, RequestUser := false }
        = (dbAlice, Reply.error GoError.recordNotFound) ∧
      invalidCredentialsBlob
        = "\x7b\"error\":\"ForbiddenOperationException\",\"errorMessage\":\"Invalid credentials. Invalid username or password.\"\x7d" := by
  decide

/-- C8, failing input: `alice` owns the pair `(tokenC1, tokenA1)` with
`Valid = false` and authenticates with clientToken `tokenC1`. The reply carries
the new access token `tokenA2`, but the stored pair keeps `tokenA1` and
`Valid = false`, and `Validate` with the returned tokens answers 403. -/
theorem authenticate_existing_clientToken_not_persisted :
    AuthAuthenticate (demoEnv tokenA2 tokenC2) (dbAlicePair false) (aliceLogin (some tokenC1))
        = (dbAlicePair false, Reply.json 200 (bareResponse tokenA2 tokenC1)) ∧
      AuthValidate (dbAlicePair false) { AccessToken := tokenA2, ClientToken := tokenC1 }
        = (dbAlicePair false, Reply.noContent 403) := by
  decide

/-- C10: the two rejections of `Refresh`. When no pair has the requested
ClientToken the reply is 401 with an empty body; when a pair has it (on a store
that meets the primary-key constraint) and the request's accessToken differs
from the stored one the reply is 401 with the structured body
`invalidAccessTokenBlob`, which is not empty; the two replies differ and in both
cases the store is unchanged. -/
theorem refresh_rejections (env : Env) (db : DB) (req : refreshRequest)
    (hu : db.ClientTokensUnique) :
    ((∀ p ∈ db.token_pairs, p.ClientToken ≠ req.ClientToken) →
        AuthRefresh env db req = (db, Reply.noContent 401)) ∧
      (∀ p ∈ db.token_pairs, p.ClientToken = req.ClientToken →
        req.AccessToken ≠ p.AccessToken →
        AuthRefresh env db req = (db, Reply.jsonBlob 401 invalidAccessTokenBlob)) ∧
      invalidAccessTokenBlob ≠ "" ∧
      (Reply.noContent 401 : Reply refreshResponse) ≠ Reply.jsonBlob 401 invalidAccessTokenBlob := by
  refine ⟨?_, ?_, by decide, by simp⟩
  · intro hno
    simp [AuthRefresh, firstTokenPair_none db _ hno, StatusUnauthorized]
  · intro p hp hk hne
    have hf := firstTokenPair_of_mem db hu p hp
    rw [hk] at hf
    simp [AuthRefresh, hf, hne, StatusUnauthorized]

/-- Witness for C10: a refresh of the pair of `alice` with a wrong access token. -/
theorem refresh_rejections_witness :
    (dbAlicePair true).ClientTokensUnique ∧
      AuthRefresh (demoEnv tokenA2 tokenC2) (dbAlicePair true)
          { AccessToken := tokenA2, ClientToken := tokenC1, RequestUser := false }
        = (dbAlicePair true, Reply.jsonBlob 401 invalidAccessTokenBlob) :=
  ⟨by decide,
    (refresh_rejections (demoEnv tokenA2 tokenC2) (dbAlicePair true)
      { AccessToken := tokenA2, ClientToken := tokenC1, RequestUser := false }
      (by decide)).2.1
      { ClientToken := tokenC1, AccessToken := tokenA1, Valid := true, UserUUID := aliceUUID }
      (by decide) (by decide) (by decide)⟩

/-- Every list of length 32 is an explicit list of 32 entries. -/
theorem length32_cases (u : GoString) (h : u.length = 32) :
    ∃ a0 a1 a2 a3 a4 a5 a6 a7 a8 a9 a10 a11 a12 a13 a14 a15 a16 a17 a18 a19 a20 a21 a22 a23 a24
      a25 a26 a27 a28 a29 a30 a31,
      u = a0 :: a1 :: a2 :: a3 :: a4 :: a5 :: a6 :: a7 :: a8 :: a9 :: a10 :: a11 :: a12 :: a13
        :: a14 :: a15 :: a16 :: a17 :: a18 :: a19 :: a20 :: a21 :: a22 :: a23 :: a24 :: a25 ::
        a26 :: a27 :: a28 :: a29 :: a30 :: a31 :: [] := by
  match u, h with
  | a0 :: a1 :: a2 :: a3 :: a4 :: a5 :: a6 :: a7 :: a8 :: a9 :: a10 :: a11 :: a12 :: a13 :: a14
    :: a15 :: a16 :: a17 :: a18 :: a19 :: a20 :: a21 :: a22 :: a23 :: a24 :: a25 :: a26 :: a27
    :: a28 :: a29 :: a30 :: a31 :: [], _ =>
    exact ⟨a0, a1, a2, a3, a4, a5, a6, a7, a8, a9, a10, a11, a12, a13, a14, a15, a16, a17, a18,
      a19, a20, a21, a22, a23, a24, a25, a26, a27, a28, a29, a30, a31, rfl⟩

/-- A hexadecimal digit is not a hyphen. -/
theorem hex_ne_hyphen (b : Nat) (h : IsHexDigit b) : b ≠ hyphen := by
  unfold IsHexDigit at h
  unfold hyphen
  omega

/-- C15: for every 32-byte id made of hexadecimal digits, `IDToUUID id` succeeds
and returns the 36-byte string `id[0:8] + "-" + id[8:12] + "-" + id[12:16] + "-"
+ id[16:20] + "-" + id[20:32]`, and `UUIDToID` of that string succeeds and
returns `id`. -/
theorem id_roundtrip (id : GoString) (hlen : id.length = 32)
    (hhex : ∀ b ∈ id, IsHexDigit b) :
    (IDToUUID id).2 = none ∧
      (IDToUUID id).1 = slice id 0 8 ++ [hyphen] ++ slice id 8 12 ++ [hyphen]
        ++ slice id 12 16 ++ [hyphen] ++ slice id 16 20 ++ [hyphen] ++ slice id 20 32 ∧
      (IDToUUID id).1.length = 36 ∧
      UUIDToID (IDToUUID id).1 = (id, none) := by
  have hne : ∀ b ∈ id, b ≠ hyphen := fun b hb => hex_ne_hyphen b (hhex b hb)
  clear hhex
  obtain ⟨a0, a1, a2, a3, a4, a5, a6, a7, a8, a9, a10, a11, a12, a13, a14, a15, a16, a17, a18,
      a19, a20, a21, a22, a23, a24, a25, a26, a27, a28, a29, a30, a31, rfl⟩ := length32_cases
      id hlen
  have h0 : a0 ≠ hyphen := hne a0 (by simp)
  have h1 : a1 ≠ hyphen := hne a1 (by simp)
  have h2 : a2 ≠ hyphen := hne a2 (by simp)
  have h3 : a3 ≠ hyphen := hne a3 (by simp)
  have h4 : a4 ≠ hyphen := hne a4 (by simp)
  have h5 : a5 ≠ hyphen := hne a5 (by simp)
  have h6 : a6 ≠ hyphen := hne a6 (by simp)
  have h7 : a7 ≠ hyphen := hne a7 (by simp)
  have h8 : a8 ≠ hyphen := hne a8 (by simp)
  have h9 : a9 ≠ hyphen := hne a9 (by simp)
  have h10 : a10 ≠ hyphen := hne a10 (by simp)
  have h11 : a11 ≠ hyphen := hne a11 (by simp)
  have h12 : a12 ≠ hyphen := hne a12 (by simp)
  have h13 : a13 ≠ hyphen := hne a13 (by simp)
  have h14 : a14 ≠ hyphen := hne a14 (by simp)
  have h15 : a15 ≠ hyphen := hne a15 (by simp)
  have h16 : a16 ≠ hyphen := hne a16 (by simp)
  have h17 : a17 ≠ hyphen := hne a17 (by simp)
  have h18 : a18 ≠ hyphen := hne a18 (by simp)
  have h19 : a19 ≠ hyphen := hne a19 (by simp)
  have h20 : a20 ≠ hyphen := hne a20 (by simp)
  have h21 : a21 ≠ hyphen := hne a21 (by simp)
  have h22 : a22 ≠ hyphen := hne a22 (by simp)
  have h23 : a23 ≠ hyphen := hne a23 (by simp)
  have h24 : a24 ≠ hyphen := hne a24 (by simp)
  have h25 : a25 ≠ hyphen := hne a25 (by simp)
  have h26 : a26 ≠ hyphen := hne a26 (by simp)
  have h27 : a27 ≠ hyphen := hne a27 (by simp)
  have h28 : a28 ≠ hyphen := hne a28 (by simp)
  have h29 : a29 ≠ hyphen := hne a29 (by simp)
  have h30 : a30 ≠ hyphen := hne a30 (by simp)
  have h31 : a31 ≠ hyphen := hne a31 (by simp)
  simp [UUIDToID, IDToUUID, replaceAllHyphens, slice, List.filter_cons, *]

/-- Witness for C15 on the id `0123456789abcdef0123456789abcdef`. -/
theorem id_roundtrip_witness :
    (ascii "0123456789abcdef0123456789abcdef").length = 32 ∧
      UUIDToID (IDToUUID (ascii "0123456789abcdef0123456789abcdef")).1
        = (ascii "0123456789abcdef0123456789abcdef", none) :=
  ⟨by decide,
    (id_roundtrip (ascii "0123456789abcdef0123456789abcdef") (by decide) (by decide)).2.2.2⟩

/-- C18: for every string `s` of 36 bytes, whatever they are, `UUIDToID s`
succeeds and returns `s` with every hyphen removed; the result holds no hyphen,
its length is 36 minus the number of hyphens in `s`, and it is 32 exactly when
`s` holds exactly four hyphens. -/
theorem uuidToID_length_only (s : GoString) (hlen : s.length = 36) :
    (UUIDToID s).2 = none ∧
      (UUIDToID s).1 = s.filter (fun b => decide (b ≠ hyphen)) ∧
      hyphen ∉ (UUIDToID s).1 ∧
      (UUIDToID s).1.length = 36 - s.count hyphen ∧
      ((UUIDToID s).1.length = 32 ↔ s.count hyphen = 4) := by
  have hfilter : replaceAllHyphens s = s.filter (fun b => decide (b ≠ hyphen)) := by
    unfold replaceAllHyphens
    congr 1
    funext b
    by_cases hb : b = hyphen <;> simp [bne, hb]
  have hcount : (s.filter (fun b => decide (b ≠ hyphen))).length + s.count hyphen = 36 := by
    have h1 := List.length_eq_countP_add_countP (fun b => decide (b ≠ hyphen)) s
    rw [hlen] at h1
    rw [← List.countP_eq_length_filter, List.count_eq_countP]
    have h2 : List.countP (fun a => decide (¬ (decide (a ≠ hyphen)) = true)) s
        = List.countP (fun x => x == hyphen) s := by
      congr 1
      funext b
      by_cases hb : b = hyphen <;> simp [hb]
    omega
  have hval : UUIDToID s = (s.filter (fun b => decide (b ≠ hyphen)), none) := by
    simp [UUIDToID, hlen, hfilter]
  rw [hval]
  refine ⟨rfl, rfl, ?_, ?_, ?_⟩
  · simp [List.mem_filter]
  · simp only; omega
  · simp only; omega

/-- Witness for C18 on a string of 36 hyphens, whose compact form is empty. -/
theorem uuidToID_length_only_witness :
    (List.replicate 36 hyphen).length = 36 ∧ (UUIDToID (List.replicate 36 hyphen)).2 = none :=
  ⟨by decide, (uuidToID_length_only (List.replicate 36 hyphen) (by decide)).1⟩

/-- C19: `ValidatePlayerName` returns no error exactly when the name holds
between 1 and 16 bytes; the empty name is rejected with `can't be blank`, a
name of more than 16 bytes with `can't be longer than 16 characters`; and
`ValidateUsername` returns what `ValidatePlayerName` returns. -/
theorem validatePlayerName_exact (name : GoString) :
    (ValidatePlayerName name = none ↔ 1 ≤ name.length ∧ name.length ≤ 16) ∧
      (name.length = 0 → ValidatePlayerName name = some (GoError.other "can't be blank")) ∧
      (16 < name.length →
        ValidatePlayerName name
          = some (GoError.other "can't be longer than 16 characters")) ∧
      ValidateUsername name = ValidatePlayerName name := by
  have hmsg : "can't be longer than " ++ toString 16 ++ " characters"
      = "can't be longer than 16 characters" := by decide
  refine ⟨?_, ?_, ?_, rfl⟩
  · unfold ValidatePlayerName
    cases name with
    | nil => simp
    | cons b bs =>
      by_cases h : (b :: bs).length > 16
      · simp only [reduceCtorEq, if_false, h, if_true]
        simp only [List.length_cons] at h
        simp only [List.length_cons]
        constructor
        · intro hc; cases hc
        · intro hc; omega
      · simp only [reduceCtorEq, if_false, h, true_iff]
        simp only [List.length_cons] at h
        simp only [List.length_cons]
        omega
  · intro h0
    have : name = [] := List.length_eq_zero.mp h0
    subst this
    simp [ValidatePlayerName]
  · intro hlong
    have hne : name ≠ [] := by
      intro hc; subst hc; simp at hlong
    simp only [ValidatePlayerName, hne, if_false, gt_iff_lt, hlong, if_true, hmsg]

/-! ### Invalidate and Signout -/

/-- C11: when the request's clientToken names a pair `p` of a store that meets
the primary-key constraint, `Invalidate` answers 204 with an empty body whatever
the request's accessToken is; afterwards every pair with the UserUUID of `p` has
`Valid = false`, every pair of another user is unchanged, and no pair's
ClientToken, AccessToken or UserUUID has changed. -/
theorem invalidate_blast_radius (db : DB) (req : invalidateRequest) (p : TokenPair)
    (hu : db.ClientTokensUnique) (hp : p ∈ db.token_pairs)
    (hk : p.ClientToken = req.ClientToken) :
    (AuthInvalidate db req).2 = Reply.noContent 204 ∧
      (AuthInvalidate db req).1.users = db.users ∧
      (AuthInvalidate db req).1.token_pairs
        = db.token_pairs.map
            (fun r => if r.UserUUID = p.UserUUID then { r with Valid := false } else r) ∧
      (∀ r ∈ (AuthInvalidate db req).1.token_pairs, r.UserUUID = p.UserUUID → r.Valid = false) ∧
      (∀ r ∈ db.token_pairs, r.UserUUID ≠ p.UserUUID →
        r ∈ (AuthInvalidate db req).1.token_pairs) ∧
      (AuthInvalidate db req).1.token_pairs.map TokenPair.ClientToken
        = db.token_pairs.map TokenPair.ClientToken ∧
      (AuthInvalidate db req).1.token_pairs.map TokenPair.AccessToken
        = db.token_pairs.map TokenPair.AccessToken ∧
      (AuthInvalidate db req).1.token_pairs.map TokenPair.UserUUID
        = db.token_pairs.map TokenPair.UserUUID := by
  have hf := firstTokenPair_of_mem db hu p hp
  rw [hk] at hf
  have hval : AuthInvalidate db req
      = (updatesValidWhereUserUUID db p.UserUUID false, Reply.noContent 204) := by
    simp [AuthInvalidate, hf, StatusNoContent]
  rw [hval]
  refine ⟨rfl, rfl, rfl, ?_, ?_, ?_, ?_, ?_⟩
  · intro r hr ho
    simp only [updatesValidWhereUserUUID, List.mem_map] at hr
    obtain ⟨r0, _, rfl⟩ := hr
    by_cases h0 : r0.UserUUID = p.UserUUID
    · simp [h0]
    · simp only [h0, if_false] at ho
  · intro r hr ho
    simp only [updatesValidWhereUserUUID, List.mem_map]
    exact ⟨r, hr, by simp [ho]⟩
  · simp only [updatesValidWhereUserUUID, List.map_map]
    apply List.map_congr_left
    intro r _
    by_cases h0 : r.UserUUID = p.UserUUID <;> simp [h0]
  · simp only [updatesValidWhereUserUUID, List.map_map]
    apply List.map_congr_left
    intro r _
    by_cases h0 : r.UserUUID = p.UserUUID <;> simp [h0]
  · simp only [updatesValidWhereUserUUID, List.map_map]
    apply List.map_congr_left
    intro r _
    by_cases h0 : r.UserUUID = p.UserUUID <;> simp [h0]

/-- Witness for C11: invalidating the pair of `alice` with a wrong access token
leaves the pair of `bob` in the store. -/
theorem invalidate_blast_radius_witness :
    (dbAliceBob bobUUID).ClientTokensUnique ∧
      ({ ClientToken := tokenC2, AccessToken := tokenA2, Valid := true, UserUUID := bobUUID }
          : TokenPair) ∈
        (AuthInvalidate (dbAliceBob bobUUID)
          { AccessToken := tokenA2, ClientToken := tokenC1 }).1.token_pairs :=
  ⟨by decide,
    (invalidate_blast_radius (dbAliceBob bobUUID)
      { AccessToken := tokenA2, ClientToken := tokenC1 }
      { ClientToken := tokenC1, AccessToken := tokenA1, Valid := true, UserUUID := aliceUUID }
      (by decide) (by decide) (by decide)).2.2.2.2.1
      { ClientToken := tokenC2, AccessToken := tokenA2, Valid := true, UserUUID := bobUUID }
      (by decide) (by decide)⟩

/-- C16: when the request's clientToken names no pair, `Invalidate` returns the
store's `ErrRecordNotFound` as a Go error, which is not the 204 reply, and the
store is unchanged. -/
theorem invalidate_not_found (db : DB) (req : invalidateRequest)
    (h : ∀ p ∈ db.token_pairs, p.ClientToken ≠ req.ClientToken) :
    AuthInvalidate db req = (db, Reply.error GoError.recordNotFound) ∧
      (AuthInvalidate db req).2 ≠ Reply.noContent 204 := by
  have hval : AuthInvalidate db req = (db, Reply.error GoError.recordNotFound) := by
    simp [AuthInvalidate, firstTokenPair_none db _ h]
  rw [hval]
  exact ⟨rfl, by simp⟩

/-- Witness for C16: a client token that is in no pair of the store. -/
theorem invalidate_not_found_witness :
    AuthInvalidate (dbAlicePair true) { AccessToken := tokenA1, ClientToken := tokenC2 }
      = (dbAlicePair true, Reply.error GoError.recordNotFound) :=
  (invalidate_not_found (dbAlicePair true) { AccessToken := tokenA1, ClientToken := tokenC2 }
    (by decide)).1

/-- C14: when the request names an existing user and its password hashes to
something other than the stored PasswordHash, `Signout` answers 401 with the
body `invalidCredentialsBlob` and leaves the store unchanged; `Authenticate`
answers a password mismatch of the same user with that same body. -/
theorem signout_wrong_password (env : Env) (db : DB) (req : signoutRequest) (user : User)
    (hash : List Nat)
    (huser : firstUserByUsername db req.Username = some user)
    (hhash : HashPassword env req.Password user.PasswordSalt = Except.ok hash)
    (hne : hash ≠ user.PasswordHash) :
    AuthSignout env db req = (db, Reply.jsonBlob 401 invalidCredentialsBlob) ∧
      (∀ (clientToken : Option GoString) (agent : Option Agent) (requestUser : Bool),
        AuthAuthenticate env db
            { Username := req.Username, Password := req.Password, ClientToken := clientToken,
              Agent := agent, RequestUser := requestUser }
          = (db, Reply.jsonBlob 401 invalidCredentialsBlob)) := by
  constructor
  · simp [AuthSignout, huser, hhash, hne, StatusUnauthorized]
  · intro clientToken agent requestUser
    simp [AuthAuthenticate, huser, hhash, hne, StatusUnauthorized]

/-- Witness for C14: `alice` signs out with the password `wrong`. -/
theorem signout_wrong_password_witness :
    AuthSignout (demoEnv tokenA2 tokenC2) (dbAlicePair true)
        { Username := ascii "alice", Password := ascii "wrong" }
      = (dbAlicePair true, Reply.jsonBlob 401 invalidCredentialsBlob) :=
  (signout_wrong_password (demoEnv tokenA2 tokenC2) (dbAlicePair true)
    { Username := ascii "alice", Password := ascii "wrong" } alice ([1, 2, 3] ++ ascii "wrong")
    (by decide) rfl (by decide)).1

/-! ### The profile block and Refresh on any pair -/

theorem refreshReply_profile (req : refreshRequest) (user : User) (tokenPair : TokenPair)
    (status : Nat) (res : refreshResponse)
    (h : refreshReply req user tokenPair = Reply.json status res) :
    res.SelectedProfile = { ID := (UUIDToID user.UUID).1, Name := user.PlayerName } ∧
      res.AvailableProfiles = [res.SelectedProfile] := by
  unfold refreshReply at h
  rcases hU : UUIDToID user.UUID with ⟨id, _ | e⟩ <;>
    rcases hR : req.RequestUser <;> simp [hU, hR] at h
  all_goals (obtain ⟨_, rfl⟩ := h; exact ⟨rfl, rfl⟩)

theorem authenticateReply_profile (req : authenticateRequest) (user : User)
    (clientToken accessToken : GoString) (status : Nat) (res : authenticateResponse)
    (h : authenticateReply req user clientToken accessToken = Reply.json status res) :
    (req.Agent ≠ none →
        res.SelectedProfile = some { ID := (UUIDToID user.UUID).1, Name := user.PlayerName } ∧
        res.AvailableProfiles
          = some [{ ID := (UUIDToID user.UUID).1, Name := user.PlayerName }]) ∧
      (req.Agent = none → res.SelectedProfile = none ∧ res.AvailableProfiles = none) := by
  unfold authenticateReply at h
  rcases hA : req.Agent with _ | a <;> rcases hU : UUIDToID user.UUID with ⟨id, _ | e⟩ <;>
    rcases hR : req.RequestUser <;> simp [hA, hU, hR] at h
  all_goals (obtain ⟨_, rfl⟩ := h; simp)

theorem refresh_ok_reply (env : Env) (db : DB) (req : refreshRequest) (db1 : DB)
    (status : Nat) (res : refreshResponse)
    (h : AuthRefresh env db req = (db1, Reply.json status res)) :
    ∃ tokenPair saved,
      firstTokenPairByClientToken db req.ClientToken = some tokenPair ∧
      refreshReply req (preloadUser db tokenPair) saved = Reply.json status res := by
  unfold AuthRefresh at h
  split at h
  · cases h
  · rename_i tokenPair hfind
    simp only at h
    split at h
    · cases h
    · split at h
      · cases h
      · split at h
        · cases h
        · rename_i db2 saved hsave
          simp only [Prod.mk.injEq] at h
          exact ⟨tokenPair, saved, hfind, h.2⟩

theorem authenticate_ok_reply (env : Env) (db : DB) (req : authenticateRequest) (db1 : DB)
    (status : Nat) (res : authenticateResponse)
    (h : AuthAuthenticate env db req = (db1, Reply.json status res)) :
    ∃ user clientToken accessToken,
      firstUserByUsername db req.Username = some user ∧
      authenticateReply req user clientToken accessToken = Reply.json status res := by
  unfold AuthAuthenticate at h
  split at h
  · cases h
  · rename_i user huser
    split at h
    · cases h
    · split at h
      · cases h
      · split at h
        · cases h
        · rename_i accessToken hacc
          split at h
          · cases h
          · rename_i clientToken tokenPairs hpairs
            split at h
            · cases h
            · simp only [Prod.mk.injEq] at h
              exact ⟨user, clientToken, accessToken, huser, h.2⟩

theorem authenticateTokenPairs_isOk (env : Env) (old : List TokenPair)
    (reqClientToken : Option GoString) (accessToken : GoString)
    (h : reqClientToken = none → ∃ c, env.RandomHex 1 16 = Except.ok c) :
    ∃ clientToken tokenPairs,
      authenticateTokenPairs env old reqClientToken accessToken
        = Except.ok (clientToken, tokenPairs) := by
  cases reqClientToken with
  | none =>
    obtain ⟨c, hc⟩ := h rfl
    exact ⟨_, _, by simp only [authenticateTokenPairs, hc]; rfl⟩
  | some ct =>
    cases hov : overwriteFirst ct accessToken old with
    | none => exact ⟨_, _, by simp only [authenticateTokenPairs, hov]; rfl⟩
    | some updated => exact ⟨_, _, by simp only [authenticateTokenPairs, hov]; rfl⟩

theorem saveUser_isOk (db : DB) (user : User) (tokenPairs : List TokenPair)
    (h : user.UUID ≠ []) : ∃ db1, saveUser db user tokenPairs = Except.ok db1 :=
  ⟨_, by simp only [saveUser, h, if_false]; rfl⟩

theorem authenticateReply_isOk (req : authenticateRequest) (user : User)
    (clientToken accessToken : GoString) (hlen : user.UUID.length = 36) :
    ∃ res, authenticateReply req user clientToken accessToken = Reply.json 200 res := by
  have hU : UUIDToID user.UUID = (replaceAllHyphens user.UUID, none) := by
    simp [UUIDToID, hlen]
  unfold authenticateReply
  rw [hU]
  rcases hA : req.Agent with _ | a <;> rcases hR : req.RequestUser <;>
    exact ⟨_, by simp only [Bool.false_eq_true, if_false, if_true, StatusOK]; rfl⟩

/-- C13: every successful `Refresh` response carries
`selectedProfile = {id: UUIDToID(owner.UUID), name: owner.PlayerName}` for the
owner loaded with the pair, `availableProfiles = [selectedProfile]` and the
request's clientToken, whatever the request's other fields are; a successful
`Authenticate` response carries `selectedProfile` and `availableProfiles` with
those values for the authenticated user when the request has an agent, and
carries neither when it has none. Such responses exist: `Authenticate` with the
correct password of a user with a 36-byte UUID answers 200 whenever the random
source returns the tokens it is asked for, with the profile block exactly when
the request has an agent. -/
theorem profile_block_asymmetry :
    (∀ (env : Env) (db : DB) (req : refreshRequest) (db1 : DB) (res : refreshResponse),
        AuthRefresh env db req = (db1, Reply.json 200 res) →
        ∃ tokenPair, firstTokenPairByClientToken db req.ClientToken = some tokenPair ∧
          res.SelectedProfile
            = { ID := (UUIDToID (preloadUser db tokenPair).UUID).1,
                Name := (preloadUser db tokenPair).PlayerName } ∧
          res.AvailableProfiles = [res.SelectedProfile] ∧
          res.ClientToken = req.ClientToken) ∧
      (∀ (env : Env) (db : DB) (req : authenticateRequest) (db1 : DB)
          (res : authenticateResponse),
        AuthAuthenticate env db req = (db1, Reply.json 200 res) →
        ∃ user, firstUserByUsername db req.Username = some user ∧
          (req.Agent ≠ none →
            res.SelectedProfile
              = some { ID := (UUIDToID user.UUID).1, Name := user.PlayerName } ∧
            res.AvailableProfiles
              = some [{ ID := (UUIDToID user.UUID).1, Name := user.PlayerName }]) ∧
          (req.Agent = none → res.SelectedProfile = none ∧ res.AvailableProfiles = none)) ∧
      (∀ (env : Env) (db : DB) (req : authenticateRequest) (user : User)
          (accessToken : GoString),
        firstUserByUsername db req.Username = some user →
        HashPassword env req.Password user.PasswordSalt = Except.ok user.PasswordHash →
        user.UUID.length = 36 →
        env.RandomHex 0 16 = Except.ok accessToken →
        (req.ClientToken = none → ∃ c, env.RandomHex 1 16 = Except.ok c) →
        ∃ db1 res, AuthAuthenticate env db req = (db1, Reply.json 200 res) ∧
          (req.Agent ≠ none →
            res.SelectedProfile
              = some { ID := (UUIDToID user.UUID).1, Name := user.PlayerName } ∧
            res.AvailableProfiles
              = some [{ ID := (UUIDToID user.UUID).1, Name := user.PlayerName }]) ∧
          (req.Agent = none → res.SelectedProfile = none ∧ res.AvailableProfiles = none)) := by
  refine ⟨?_, ?_, ?_⟩
  · intro env db req db1 res h
    obtain ⟨tokenPair, saved, hfind, hreply⟩ := refresh_ok_reply env db req db1 200 res h
    obtain ⟨tp2, accessToken, saved2, hfind2, _, _, hsave, _, hct⟩ :=
      refresh_ok_inv env db req db1 200 res h
    rw [hfind] at hfind2
    cases hfind2
    obtain ⟨hmem, hkey⟩ := firstTokenPair_some db _ _ hfind
    have hany : db.token_pairs.any (fun r => decide (r.ClientToken = tokenPair.ClientToken))
        = true := by
      simp only [List.any_eq_true, decide_eq_true_eq]
      exact ⟨tokenPair, hmem, rfl⟩
    obtain ⟨hsk, _, _, _⟩ := saveTokenPair_ok db _ _ db1 saved2 hsave hany
    simp only at hsk
    obtain ⟨hp1, hp2⟩ := refreshReply_profile _ _ _ _ _ hreply
    exact ⟨tokenPair, hfind, hp1, hp2, by rw [hct, hsk, hkey]⟩
  · intro env db req db1 res h
    obtain ⟨user, clientToken, accessToken, huser, hreply⟩ :=
      authenticate_ok_reply env db req db1 200 res h
    exact ⟨user, huser, authenticateReply_profile _ _ _ _ _ _ hreply⟩
  · intro env db req user accessToken huser hhash hlen hrand hrand1
    have hne : user.UUID ≠ [] := by
      intro h0; rw [h0] at hlen; simp at hlen
    obtain ⟨clientToken, tokenPairs, hpairs⟩ :=
      authenticateTokenPairs_isOk env (preloadTokenPairs db user) req.ClientToken accessToken
        hrand1
    obtain ⟨db1, hsave⟩ := saveUser_isOk db user tokenPairs hne
    obtain ⟨res, hres⟩ := authenticateReply_isOk req user clientToken accessToken hlen
    refine ⟨db1, res, ?_, authenticateReply_profile _ _ _ _ _ _ hres⟩
    simp only [AuthAuthenticate, huser, hhash, ne_eq, not_true_eq_false, if_false, hrand,
      hpairs, hsave, hres]

/-- Witness for C13: the refresh of the pair of `alice` with `requestUser` set
answers with her profile, and her login with an agent answers 200 with her
profile as `selectedProfile` and as the one entry of `availableProfiles`. -/
theorem profile_block_asymmetry_witness :
    (∃ tokenPair,
      firstTokenPairByClientToken (dbAlicePair true) tokenC1 = some tokenPair ∧
        aliceProfile
          = { ID := (UUIDToID (preloadUser (dbAlicePair true) tokenPair).UUID).1,
              Name := (preloadUser (dbAlicePair true) tokenPair).PlayerName } ∧
        [aliceProfile] = [aliceProfile] ∧ tokenC1 = tokenC1) ∧
      (∃ db1 res,
        AuthAuthenticate (demoEnv tokenA2 tokenC2) dbAlice (aliceAgentLogin true)
          = (db1, Reply.json 200 res) ∧
        (some { Name := ascii "Minecraft", Version := 1 } ≠ (none : Option Agent) →
          res.SelectedProfile = some { ID := (UUIDToID alice.UUID).1, Name := alice.PlayerName } ∧
          res.AvailableProfiles
            = some [{ ID := (UUIDToID alice.UUID).1, Name := alice.PlayerName }]) ∧
        (some { Name := ascii "Minecraft", Version := 1 } = (none : Option Agent) →
          res.SelectedProfile = none ∧ res.AvailableProfiles = none)) ∧
      AuthAuthenticate (demoEnv tokenA2 tokenC2) dbAlice (aliceAgentLogin true)
        = ({ users := [alice]
             token_pairs := [{ ClientToken := tokenC1, AccessToken := tokenA2, Valid := true,
                               UserUUID := aliceUUID }] },
           Reply.json 200
            { AccessToken := tokenA2, ClientToken := tokenC1,
              SelectedProfile := some aliceProfile,
              AvailableProfiles := some [aliceProfile],
              User := some { ID := aliceProfile.ID,
                             Properties := [{ Name := ascii "preferredLanguage",
                                              Value := ascii "en" }] } }) :=
  ⟨profile_block_asymmetry.1 (demoEnv tokenA2 tokenC2) (dbAlicePair true)
      { AccessToken := tokenA1, ClientToken := tokenC1, RequestUser := true }
      { users := [alice]
        token_pairs := [{ ClientToken := tokenC1, AccessToken := tokenA2, Valid := true,
                          UserUUID := aliceUUID }] }
      { AccessToken := tokenA2, ClientToken := tokenC1, SelectedProfile := aliceProfile,
        AvailableProfiles := [aliceProfile],
        User := some { ID := aliceProfile.ID,
                       Properties := [{ Name := ascii "preferredLanguage",
                                        Value := ascii "en" }] } }
      (by decide),
    profile_block_asymmetry.2.2 (demoEnv tokenA2 tokenC2) dbAlice (aliceAgentLogin true) alice
      tokenA2 (by decide) rfl (by decide) rfl (fun _ => ⟨tokenC2, rfl⟩),
    by decide⟩

theorem preloadUser_of_exists (db : DB) (p : TokenPair) (hne : p.UserUUID ≠ [])
    (hex : ∃ u ∈ db.users, u.UUID = p.UserUUID) :
    preloadUser db p ∈ db.users ∧ (preloadUser db p).UUID = p.UserUUID := by
  unfold preloadUser
  simp only [hne, if_false]
  cases hf : db.users.find? (fun u => decide (u.UUID = p.UserUUID)) with
  | none =>
    simp only [List.find?_eq_none, decide_eq_true_eq] at hf
    obtain ⟨u, hu, hk⟩ := hex
    exact absurd hk (hf u hu)
  | some u =>
    simp only [Option.getD_some]
    exact ⟨List.mem_of_find?_eq_some hf, by simpa using List.find?_some hf⟩

/-- C17, counterexamples: a pair with `Valid = false` is in the store and
`Refresh` is called with its tokens, yet the reply is not a success. In the
first store the random source fails and nothing changes; in the second the
pair's UserUUID names no user, the access token is rotated and saved, and the
reply is the error of `UUIDToID`. -/
theorem refresh_of_stored_pair_can_fail :
    AuthRefresh failingRandEnv (dbAlicePair false)
        { AccessToken := tokenA1, ClientToken := tokenC1, RequestUser := false }
        = (dbAlicePair false, Reply.error (GoError.other "rand: read failed")) ∧
      AuthRefresh (demoEnv tokenA1 tokenC1) (dbOrphanPair tokenA2 false)
        { AccessToken := tokenA2, ClientToken := tokenC2, RequestUser := false }
        = (dbOrphanPair tokenA1 true, Reply.error GoError.invalidUUID) := by
  decide

/-- C17, amended: `Refresh` does not consult the Valid flag. On a store that
meets the primary-key constraint, for every pair `p` in it (whatever its Valid
flag) whose ClientToken is not empty and whose UserUUID has 36 bytes and names a
user, and whenever the random source returns a token `a2`, `Refresh` with the
tokens of `p` answers 200 with `(a2, p.ClientToken)`, the stored pair gets
access token `a2` and `Valid = true`, and `Validate` with the returned tokens
answers 204. -/
theorem refresh_ignores_valid (env : Env) (db : DB) (p : TokenPair) (a2 : GoString)
    (requestUser : Bool)
    (hu : db.ClientTokensUnique) (hp : p ∈ db.token_pairs) (hc : p.ClientToken ≠ [])
    (hlen : p.UserUUID.length = 36) (howner : ∃ u ∈ db.users, u.UUID = p.UserUUID)
    (hrand : env.RandomHex 0 16 = Except.ok a2) :
    ∃ db1 res,
      AuthRefresh env db
          { AccessToken := p.AccessToken, ClientToken := p.ClientToken,
            RequestUser := requestUser }
        = (db1, Reply.json 200 res) ∧
      res.AccessToken = a2 ∧ res.ClientToken = p.ClientToken ∧
      { p with AccessToken := a2, Valid := true } ∈ db1.token_pairs ∧
      AuthValidate db1 { AccessToken := res.AccessToken, ClientToken := res.ClientToken }
        = (db1, Reply.noContent 204) := by
  have hf := firstTokenPair_of_mem db hu p hp
  have hne : p.UserUUID ≠ [] := by
    intro h0; rw [h0] at hlen; simp at hlen
  obtain ⟨_, hown⟩ := preloadUser_of_exists db p hne howner
  have hnz : preloadUser db p ≠ User.zero := by
    intro hz
    rw [hz] at hown
    exact hne hown.symm
  have hany : db.token_pairs.any (fun r => decide (r.ClientToken = p.ClientToken)) = true := by
    simp only [List.any_eq_true, decide_eq_true_eq]
    exact ⟨p, hp, rfl⟩
  have hsave : saveTokenPair db { p with AccessToken := a2, Valid := true } (preloadUser db p)
      = Except.ok
          ({ users := insertUserDoNothing db.users (preloadUser db p)
             token_pairs := db.token_pairs.map (fun r =>
               if r.ClientToken = p.ClientToken then { p with AccessToken := a2, Valid := true }
               else r) },
            { p with AccessToken := a2, Valid := true }) := by
    simp [saveTokenPair, hc, hnz, hany, hown]
  have hU : UUIDToID (preloadUser db p).UUID
      = (replaceAllHyphens (preloadUser db p).UUID, none) := by
    simp [UUIDToID, hown, hlen]
  have hfind1 : firstTokenPairByClientToken
      { users := insertUserDoNothing db.users (preloadUser db p)
        token_pairs := db.token_pairs.map (fun r =>
          if r.ClientToken = p.ClientToken then { p with AccessToken := a2, Valid := true }
          else r) } p.ClientToken = some { p with AccessToken := a2, Valid := true } := by
    unfold firstTokenPairByClientToken
    exact find_replace_key _ _ _ rfl hany
  have hmem1 : ({ p with AccessToken := a2, Valid := true } : TokenPair) ∈
      db.token_pairs.map (fun r =>
        if r.ClientToken = p.ClientToken then { p with AccessToken := a2, Valid := true }
        else r) := by
    rw [List.mem_map]
    exact ⟨p, hp, by simp⟩
  have hreply : refreshReply
      { AccessToken := p.AccessToken, ClientToken := p.ClientToken, RequestUser := requestUser }
      (preloadUser db p) { p with AccessToken := a2, Valid := true }
      = Reply.json 200
          { AccessToken := a2
            ClientToken := p.ClientToken
            SelectedProfile :=
              { ID := replaceAllHyphens (preloadUser db p).UUID,
                Name := (preloadUser db p).PlayerName }
            AvailableProfiles :=
              [{ ID := replaceAllHyphens (preloadUser db p).UUID,
                 Name := (preloadUser db p).PlayerName }]
            User :=
              if requestUser then
                some { ID := replaceAllHyphens (preloadUser db p).UUID,
                       Properties := [{ Name := ascii "preferredLanguage",
                                        Value := (preloadUser db p).PreferredLanguage }] }
              else none } := by
    cases requestUser <;> simp [refreshReply, hU, StatusOK]
  obtain ⟨res, hres, hra, hrc⟩ : ∃ res : refreshResponse,
      refreshReply
          { AccessToken := p.AccessToken, ClientToken := p.ClientToken,
            RequestUser := requestUser }
          (preloadUser db p) { p with AccessToken := a2, Valid := true }
        = Reply.json 200 res ∧ res.AccessToken = a2 ∧ res.ClientToken = p.ClientToken :=
    ⟨_, hreply, rfl, rfl⟩
  refine ⟨{ users := insertUserDoNothing db.users (preloadUser db p)
            token_pairs := db.token_pairs.map (fun r =>
              if r.ClientToken = p.ClientToken then
                { p with AccessToken := a2, Valid := true }
              else r) }, res, ?_, hra, hrc, hmem1, ?_⟩
  · simp only [AuthRefresh, hf, ne_eq, not_true_eq_false, if_false, hrand, hsave]
    rw [hres]
  · rw [hra, hrc]
    simp [AuthValidate, hfind1, StatusNoContent]

/-- Witness for the amended C17: the pair of `alice` has `Valid = false`. -/
theorem refresh_ignores_valid_witness :
    (dbAlicePair false).ClientTokensUnique ∧
      ∃ db1 res,
        AuthRefresh (demoEnv tokenA2 tokenC2) (dbAlicePair false)
            { AccessToken := tokenA1, ClientToken := tokenC1, RequestUser := false }
          = (db1, Reply.json 200 res) ∧
        res.AccessToken = tokenA2 ∧ res.ClientToken = tokenC1 ∧
        ({ ClientToken := tokenC1, AccessToken := tokenA2, Valid := true, UserUUID := aliceUUID }
          : TokenPair) ∈ db1.token_pairs ∧
        AuthValidate db1 { AccessToken := res.AccessToken, ClientToken := res.ClientToken }
          = (db1, Reply.noContent 204) :=
  ⟨by decide,
    refresh_ignores_valid (demoEnv tokenA2 tokenC2) (dbAlicePair false)
      { ClientToken := tokenC1, AccessToken := tokenA1, Valid := false, UserUUID := aliceUUID }
      tokenA2 false (by decide) (by decide) (by decide) (by decide) (by decide) rfl⟩

/-! ### What the handlers keep of the store -/

theorem keepsPairs_refl (db : DB) : KeepsPairs db db :=
  fun r hr => ⟨r, hr, rfl, rfl⟩

theorem upsert_step (rows : List TokenPair) (e r : TokenPair) (hr : r ∈ rows) :
    ∃ r1 ∈ upsertTokenPair rows e, r1.ClientToken = r.ClientToken ∧
      (r1.UserUUID = r.UserUUID ∨
        (r1.UserUUID = e.UserUUID ∧ e.ClientToken = r.ClientToken)) := by
  unfold upsertTokenPair
  split
  · by_cases hk : r.ClientToken = e.ClientToken
    · refine ⟨{ r with UserUUID := e.UserUUID }, ?_, rfl, Or.inr ⟨rfl, hk.symm⟩⟩
      rw [List.mem_map]
      exact ⟨r, hr, by rw [if_pos hk]⟩
    · refine ⟨r, ?_, rfl, Or.inl rfl⟩
      rw [List.mem_map]
      exact ⟨r, hr, by rw [if_neg hk]⟩
  · exact ⟨r, List.mem_append_left _ hr, rfl, Or.inl rfl⟩

theorem foldl_upsert_step (elems rows : List TokenPair) (uid : GoString)
    (he : ∀ e ∈ elems, e.UserUUID = uid) (r : TokenPair) (hr : r ∈ rows) :
    ∃ r1 ∈ elems.foldl upsertTokenPair rows, r1.ClientToken = r.ClientToken ∧
      (r1.UserUUID = r.UserUUID ∨
        (r1.UserUUID = uid ∧ ∃ e ∈ elems, e.ClientToken = r.ClientToken)) := by
  induction elems generalizing rows r with
  | nil => exact ⟨r, by simpa using hr, rfl, Or.inl rfl⟩
  | cons e es ih =>
    simp only [List.foldl_cons]
    obtain ⟨r1, hr1, hk1, ho1⟩ := upsert_step rows e r hr
    obtain ⟨r2, hr2, hk2, ho2⟩ :=
      ih (upsertTokenPair rows e) (fun x hx => he x (List.mem_cons_of_mem _ hx)) r1 hr1
    refine ⟨r2, hr2, hk2.trans hk1, ?_⟩
    rcases ho2 with ho2 | ⟨ho2, e2, he2, hk3⟩
    · rcases ho1 with ho1 | ⟨ho1, hke⟩
      · exact Or.inl (ho2.trans ho1)
      · refine Or.inr ⟨?_, e, List.mem_cons_self _ _, hke⟩
        rw [ho2, ho1]
        exact he e (List.mem_cons_self _ _)
    · exact Or.inr ⟨ho2, e2, List.mem_cons_of_mem _ he2, hk3.trans hk1⟩

theorem overwriteFirst_keys (c a : GoString) (l l1 : List TokenPair)
    (h : overwriteFirst c a l = some l1) :
    l1.map TokenPair.ClientToken = l.map TokenPair.ClientToken := by
  induction l generalizing l1 with
  | nil => simp [overwriteFirst] at h
  | cons p ps ih =>
    unfold overwriteFirst at h
    split at h
    · simp only [Option.some.injEq] at h
      subst h
      simp
    · cases hrec : overwriteFirst c a ps with
      | none => simp [hrec] at h
      | some qs =>
        simp only [hrec, Option.map_some', Option.some.injEq] at h
        subst h
        simp [ih qs hrec]

theorem authenticateTokenPairs_keys (env : Env) (old : List TokenPair)
    (reqClientToken : Option GoString) (accessToken clientToken : GoString)
    (tokenPairs : List TokenPair)
    (h : authenticateTokenPairs env old reqClientToken accessToken
      = Except.ok (clientToken, tokenPairs)) :
    ∀ e ∈ tokenPairs, (∃ q ∈ old, q.ClientToken = e.ClientToken) ∨
      reqClientToken = some e.ClientToken ∨
      (reqClientToken = none ∧ env.RandomHex 1 16 = Except.ok e.ClientToken) := by
  intro e he
  unfold authenticateTokenPairs at h
  cases reqClientToken with
  | none =>
    simp only at h
    cases hrand : env.RandomHex 1 16 with
    | error err => simp [hrand] at h
    | ok inner =>
      simp only [hrand, Except.ok.injEq, Prod.mk.injEq] at h
      obtain ⟨_, rfl⟩ := h
      rcases List.mem_append.mp he with he | he
      · exact Or.inl ⟨e, he, rfl⟩
      · simp only [List.mem_singleton] at he
        subst he
        exact Or.inr (Or.inr ⟨rfl, rfl⟩)
  | some ct =>
    simp only at h
    cases hov : overwriteFirst ct accessToken old with
    | some updated =>
      simp only [hov, Except.ok.injEq, Prod.mk.injEq] at h
      obtain ⟨_, rfl⟩ := h
      have hkeys := overwriteFirst_keys ct accessToken old updated hov
      have hmem : e.ClientToken ∈ old.map TokenPair.ClientToken := by
        rw [← hkeys]
        exact List.mem_map_of_mem _ he
      rw [List.mem_map] at hmem
      obtain ⟨q, hq, hk⟩ := hmem
      exact Or.inl ⟨q, hq, hk⟩
    | none =>
      simp only [hov, Except.ok.injEq, Prod.mk.injEq] at h
      obtain ⟨_, rfl⟩ := h
      rcases List.mem_append.mp he with he | he
      · exact Or.inl ⟨e, he, rfl⟩
      · simp only [List.mem_singleton] at he
        subst he
        exact Or.inr (Or.inl rfl)

theorem preloadTokenPairs_mem (db : DB) (user : User) (q : TokenPair)
    (h : q ∈ preloadTokenPairs db user) : q ∈ db.token_pairs ∧ q.UserUUID = user.UUID := by
  unfold preloadTokenPairs at h
  split at h
  · simp at h
  · simpa using List.mem_filter.mp h

theorem preloadUser_uuid (db : DB) (p : TokenPair) :
    preloadUser db p = User.zero ∨ (preloadUser db p).UUID = p.UserUUID := by
  unfold preloadUser
  split
  · exact Or.inl rfl
  · cases hf : db.users.find? (fun u => decide (u.UUID = p.UserUUID)) with
    | none => exact Or.inl rfl
    | some u => exact Or.inr (by simpa using List.find?_some hf)

theorem saveTokenPair_owner (db : DB) (tokenPair : TokenPair) (user : User) (db1 : DB)
    (saved : TokenPair) (h : saveTokenPair db tokenPair user = Except.ok (db1, saved))
    (hown : user = User.zero ∨ user.UUID = tokenPair.UserUUID) :
    saved.UserUUID = tokenPair.UserUUID := by
  unfold saveTokenPair at h
  split at h
  · cases h
  · simp only [Except.ok.injEq, Prod.mk.injEq] at h
    obtain ⟨_, rfl⟩ := h
    by_cases hz : user = User.zero
    · simp [hz]
    · rcases hown with hown | hown
      · exact absurd hown hz
      · simp [hz, hown]

theorem authenticate_store_cases (env : Env) (db : DB) (req : authenticateRequest) :
    (AuthAuthenticate env db req).1 = db ∨
      ∃ user accessToken clientToken tokenPairs,
        firstUserByUsername db req.Username = some user ∧
        authenticateTokenPairs env (preloadTokenPairs db user) req.ClientToken accessToken
          = Except.ok (clientToken, tokenPairs) ∧
        saveUser db user tokenPairs = Except.ok (AuthAuthenticate env db req).1 := by
  unfold AuthAuthenticate
  split
  · exact Or.inl rfl
  · rename_i user huser
    split
    · exact Or.inl rfl
    · split
      · exact Or.inl rfl
      · split
        · exact Or.inl rfl
        · rename_i accessToken hacc
          split
          · exact Or.inl rfl
          · rename_i clientToken tokenPairs hpairs
            split
            · exact Or.inl rfl
            · rename_i db2 hsave
              exact Or.inr ⟨user, accessToken, clientToken, tokenPairs, huser, hpairs, hsave⟩

theorem refresh_store_cases (env : Env) (db : DB) (req : refreshRequest) :
    (AuthRefresh env db req).1 = db ∨
      ∃ tokenPair accessToken saved,
        firstTokenPairByClientToken db req.ClientToken = some tokenPair ∧
        saveTokenPair db { tokenPair with AccessToken := accessToken, Valid := true }
          (preloadUser db tokenPair) = Except.ok ((AuthRefresh env db req).1, saved) := by
  unfold AuthRefresh
  split
  · exact Or.inl rfl
  · rename_i tokenPair hfind
    simp only
    split
    · exact Or.inl rfl
    · split
      · exact Or.inl rfl
      · rename_i accessToken hrand
        split
        · exact Or.inl rfl
        · rename_i db2 saved hsave
          exact Or.inr ⟨tokenPair, accessToken, saved, hfind, hsave⟩

/-- C12, failing input: `alice` authenticates with her own password and the
client token of the pair of `bob`. The reply is 200 with the new access token
`tokenA3`, but the save only re-assigns the owner of the row of `bob`: the pair
with that ClientToken is owned by `alice` afterwards, it keeps the access token
of `bob`, `tokenA3` is stored nowhere and `Validate` with the returned tokens
answers 403. -/
theorem authenticate_takes_over_foreign_pair :
    ({ ClientToken := tokenC2, AccessToken := tokenA2, Valid := true, UserUUID := bobUUID }
        : TokenPair) ∈ (dbAliceBob bobUUID).token_pairs ∧
      AuthAuthenticate (demoEnv tokenA3 tokenC1) (dbAliceBob bobUUID) (aliceLogin (some tokenC2))
        = (dbAliceBob aliceUUID, Reply.json 200 (bareResponse tokenA3 tokenC2)) ∧
      AuthValidate (dbAliceBob aliceUUID) { AccessToken := tokenA3, ClientToken := tokenC2 }
        = (dbAliceBob aliceUUID, Reply.noContent 403) ∧
      ¬ KeepsPairs (dbAliceBob bobUUID) (dbAliceBob aliceUUID) := by
  refine ⟨by decide, by decide, by decide, ?_⟩
  intro hk
  obtain ⟨r1, hr1, hk1, ho1⟩ := hk
    { ClientToken := tokenC2, AccessToken := tokenA2, Valid := true, UserUUID := bobUUID }
    (by decide)
  simp only [dbAliceBob, List.mem_cons, List.mem_singleton, List.not_mem_nil, or_false] at hr1
  rcases hr1 with rfl | rfl
  · exact absurd hk1 (by decide)
  · exact absurd ho1 (by decide)

/-- On a store that meets the primary-key constraint every handler, on success
and on failure, keeps every pair's ClientToken in the store. `Refresh`,
`Validate`, `Signout` and `Invalidate` also keep its owner, and so does
`Authenticate` for every ClientToken other than the one the request supplies or
the random source generates for a request without one; for that one the only
other outcome is the authenticated user as owner. -/
theorem handlers_keep_client_tokens (env : Env) (db : DB) (hu : db.ClientTokensUnique) :
    (∀ req : refreshRequest, KeepsPairs db (AuthRefresh env db req).1) ∧
      (∀ req : validateRequest, KeepsPairs db (AuthValidate db req).1) ∧
      (∀ req : signoutRequest, KeepsPairs db (AuthSignout env db req).1) ∧
      (∀ req : invalidateRequest, KeepsPairs db (AuthInvalidate db req).1) ∧
      (∀ req : authenticateRequest, ∀ r ∈ db.token_pairs,
        ∃ r1 ∈ (AuthAuthenticate env db req).1.token_pairs,
          r1.ClientToken = r.ClientToken ∧
          (r1.UserUUID = r.UserUUID ∨
            ∃ user, firstUserByUsername db req.Username = some user ∧
              r1.UserUUID = user.UUID ∧
              (req.ClientToken = some r.ClientToken ∨
                (req.ClientToken = none ∧
                  env.RandomHex 1 16 = Except.ok r.ClientToken)))) := by
  refine ⟨?_, ?_, ?_, ?_, ?_⟩
  · intro req
    rcases refresh_store_cases env db req with h | ⟨tp, a, saved, hfind, hsave⟩
    · rw [h]; exact keepsPairs_refl db
    · obtain ⟨htp, _⟩ := firstTokenPair_some db _ _ hfind
      have hany : db.token_pairs.any (fun r => decide (r.ClientToken = tp.ClientToken))
          = true := by
        simp only [List.any_eq_true, decide_eq_true_eq]
        exact ⟨tp, htp, rfl⟩
      obtain ⟨hsk, _, _, hrows⟩ := saveTokenPair_ok db _ _ _ saved hsave hany
      have hso := saveTokenPair_owner db _ _ _ saved hsave (preloadUser_uuid db tp)
      simp only at hsk hso hrows
      intro r hr
      by_cases hk : r.ClientToken = tp.ClientToken
      · have hrt : r = tp := List.inj_on_of_nodup_map hu hr htp hk
        subst hrt
        refine ⟨saved, ?_, hsk, hso⟩
        rw [hrows, List.mem_map]
        exact ⟨r, hr, by rw [if_pos rfl]⟩
      · refine ⟨r, ?_, rfl, rfl⟩
        rw [hrows, List.mem_map]
        exact ⟨r, hr, by rw [if_neg hk]⟩
  · intro req
    have h : (AuthValidate db req).1 = db := by
      unfold AuthValidate
      split
      · rfl
      · split <;> rfl
    rw [h]; exact keepsPairs_refl db
  · intro req
    rw [signout_store_unchanged]; exact keepsPairs_refl db
  · intro req
    unfold AuthInvalidate
    split
    · exact keepsPairs_refl db
    · rename_i tp _
      intro r hr
      refine ⟨if r.UserUUID = tp.UserUUID then { r with Valid := false } else r, ?_, ?_, ?_⟩
      · simp only [updatesValidWhereUserUUID, List.mem_map]
        exact ⟨r, hr, rfl⟩
      · split <;> rfl
      · split <;> rfl
  · intro req r hr
    rcases authenticate_store_cases env db req with
      h | ⟨user, accessToken, clientToken, tokenPairs, huser, hpairs, hsave⟩
    · rw [h]; exact ⟨r, hr, rfl, Or.inl rfl⟩
    · obtain ⟨_, hrows⟩ := saveUser_ok db user tokenPairs _ hsave
      have hown : ∀ e ∈ tokenPairs.map
          (fun p => ({ p with UserUUID := user.UUID } : TokenPair)), e.UserUUID = user.UUID := by
        intro e he
        rw [List.mem_map] at he
        obtain ⟨_, _, rfl⟩ := he
        rfl
      obtain ⟨r1, hr1, hk1, ho1⟩ := foldl_upsert_step _ db.token_pairs user.UUID hown r hr
      refine ⟨r1, by rw [hrows]; exact hr1, hk1, ?_⟩
      rcases ho1 with ho1 | ⟨ho1, e, he, hke⟩
      · exact Or.inl ho1
      · rw [List.mem_map] at he
        obtain ⟨e0, he0, rfl⟩ := he
        simp only at hke
        rcases authenticateTokenPairs_keys env _ _ _ _ _ hpairs e0 he0 with
          ⟨q, hq, hkq⟩ | hsup | ⟨hnone, hgen⟩
        · obtain ⟨hqm, hqo⟩ := preloadTokenPairs_mem db user q hq
          have hqr : q = r := List.inj_on_of_nodup_map hu hqm hr (hkq.trans hke)
          subst hqr
          exact Or.inl (ho1.trans hqo.symm)
        · exact Or.inr ⟨user, huser, ho1, Or.inl (by rw [hsup, hke])⟩
        · exact Or.inr ⟨user, huser, ho1, Or.inr ⟨hnone, by rw [hgen, hke]⟩⟩

/-- The handlers keep the pairs of `alice` and `bob` when `Invalidate` runs on
their store. -/
theorem handlers_keep_client_tokens_example :
    (dbAliceBob bobUUID).ClientTokensUnique ∧
      KeepsPairs (dbAliceBob bobUUID)
        (AuthInvalidate (dbAliceBob bobUUID)
          { AccessToken := tokenA1, ClientToken := tokenC1 }).1 :=
  ⟨by decide,
    (handlers_keep_client_tokens (demoEnv tokenA3 tokenC1) (dbAliceBob bobUUID)
      (by decide)).2.2.2.1 { AccessToken := tokenA1, ClientToken := tokenC1 }⟩

end Drasl
